import Mathlib

/-!
Verification of the `go-acorn` repository: a Go implementation of the
ACORN-128 authenticated stream cipher (files `acorn.go` and `aead.go`).

The development shallowly embeds the Go code into Lean.  Machine integers
(`uint32`, `uint64`, `uint8`) are modelled as `Nat` with explicit
truncations exactly where the Go code performs a conversion or a mask:
`uint32 x` is `x % 2^32` (`u32` below), Go's `^x` on a `uint32` is
`x ^^^ 0xFFFFFFFF` (`not32` below), and the `& 0xFF` masks of the source
appear literally.  All `uint64` arithmetic of the source (shifts and xors
on the six state segments) never overflows 64 bits when the segments do
not, so it is modelled by plain `Nat` operations.  Go panics are modelled
as `Option`/sum results; byte slices are `List Nat` whose elements are
below 256 when the corresponding Go value has type `[]uint8`.
-/

namespace Acorn

/-- Truncation to 32 bits: the meaning of a Go `uint32(·)` conversion. -/
def u32 (x : Nat) : Nat := x % 4294967296

/-- Go's bitwise complement `^x` on a `uint32` value `x`. -/
def not32 (x : Nat) : Nat := x ^^^ 0xFFFFFFFF

/-- Source `maj` (acorn.go lines 7-9): `(x & y) ^ (x & z) ^ (y & z)`. -/
def maj (x y z : Nat) : Nat := (x &&& y) ^^^ (x &&& z) ^^^ (y &&& z)

/-- Source `ch` (acorn.go lines 11-13): `(x & y) ^ (^x & z)`. -/
def ch (x y z : Nat) : Nat := (x &&& y) ^^^ (not32 x &&& z)

/-- Source `state` (acorn.go lines 15-17): six `uint64` segments of the
293-bit register, named by the absolute bit position of their low bit. -/
structure State where
  s230 : Nat
  s193 : Nat
  s154 : Nat
  s107 : Nat
  s61 : Nat
  s0 : Nat
deriving DecidableEq, Repr

/-- Source `update8` (acorn.go lines 20-68): performs 8 state updates;
`m`, `ca`, `cb` are 8 bits wide.  Returns the new state and the 8-bit
keystream unit.  The Go locals that shadow the segment names
(`s230 := ...` etc.) are written `n230` etc. here. -/
def update8 (s : State) (m ca cb : Nat) : State × Nat :=
  let s244 := u32 (s.s230 >>> 14)
  let s235 := u32 (s.s230 >>> 5)
  let s196 := u32 (s.s193 >>> 3)
  let s160 := u32 (s.s154 >>> 6)
  let s111 := u32 (s.s107 >>> 4)
  let s66 := u32 (s.s61 >>> 5)
  let s23 := u32 (s.s0 >>> 23)
  let s12 := u32 (s.s0 >>> 12)
  let s0v := u32 s.s0
  let x289 := (s235 ^^^ u32 s.s230) &&& 0xFF
  let n230 := (u32 s.s230 ^^^ s196 ^^^ u32 s.s193) &&& 0xFF
  let n193 := (u32 s.s193 ^^^ s160 ^^^ u32 s.s154) &&& 0xFF
  let n154 := (u32 s.s154 ^^^ s111 ^^^ u32 s.s107) &&& 0xFF
  let n107 := (u32 s.s107 ^^^ s66 ^^^ u32 s.s61) &&& 0xFF
  let n61 := (u32 s.s61 ^^^ s23 ^^^ s0v) &&& 0xFF
  let ks := (s12 ^^^ n154 ^^^ maj s235 n61 n193 ^^^ ch n230 s111 s66) &&& 0xFF
  let f := (s0v ^^^ not32 n107 ^^^ maj s244 s23 s160 ^^^ (ca &&& s196) ^^^ (cb &&& ks)) &&& 0xFF
  let s293 := (f ^^^ m) &&& 0xFF
  (⟨s.s230 >>> 8 ^^^ x289 <<< 51 ^^^ s293 <<< 55,
    s.s193 >>> 8 ^^^ n230 <<< 29,
    s.s154 >>> 8 ^^^ n193 <<< 31,
    s.s107 >>> 8 ^^^ n154 <<< 39,
    s.s61 >>> 8 ^^^ n107 <<< 38,
    s.s0 >>> 8 ^^^ n61 <<< 53⟩, ks)

/-- Source `update32` (acorn.go lines 70-110): same as `update8` but with
32-bit shifts and no 8-bit masks. -/
def update32 (s : State) (m ca cb : Nat) : State × Nat :=
  let s244 := u32 (s.s230 >>> 14)
  let s235 := u32 (s.s230 >>> 5)
  let s196 := u32 (s.s193 >>> 3)
  let s160 := u32 (s.s154 >>> 6)
  let s111 := u32 (s.s107 >>> 4)
  let s66 := u32 (s.s61 >>> 5)
  let s23 := u32 (s.s0 >>> 23)
  let s12 := u32 (s.s0 >>> 12)
  let s0v := u32 s.s0
  let x289 := s235 ^^^ u32 s.s230
  let n230 := u32 s.s230 ^^^ s196 ^^^ u32 s.s193
  let n193 := u32 s.s193 ^^^ s160 ^^^ u32 s.s154
  let n154 := u32 s.s154 ^^^ s111 ^^^ u32 s.s107
  let n107 := u32 s.s107 ^^^ s66 ^^^ u32 s.s61
  let n61 := u32 s.s61 ^^^ s23 ^^^ s0v
  let ks := s12 ^^^ n154 ^^^ maj s235 n61 n193 ^^^ ch n230 s111 s66
  let f := s0v ^^^ not32 n107 ^^^ maj s244 s23 s160 ^^^ (ca &&& s196) ^^^ (cb &&& ks)
  let s293 := f ^^^ m
  (⟨s.s230 >>> 32 ^^^ x289 <<< 27 ^^^ s293 <<< 31,
    s.s193 >>> 32 ^^^ n230 <<< 5,
    s.s154 >>> 32 ^^^ n193 <<< 7,
    s.s107 >>> 32 ^^^ n154 <<< 15,
    s.s61 >>> 32 ^^^ n107 <<< 14,
    s.s0 >>> 32 ^^^ n61 <<< 29⟩, ks)

/-- Source `reset` (acorn.go lines 112-114): the zeroed register. -/
def reset : State := ⟨0, 0, 0, 0, 0, 0⟩

/-- Source constant `one = ^uint32(0)` (acorn.go line 116). -/
def one : Nat := 0xFFFFFFFF

/-- The `[4]uint32` key of the Go `aead` struct. -/
structure Key where
  k0 : Nat
  k1 : Nat
  k2 : Nat
  k3 : Nat
deriving DecidableEq, Repr

/-- Indexing `k[i]` into the four key words. -/
def Key.get (k : Key) : Nat → Nat
  | 0 => k.k0
  | 1 => k.k1
  | 2 => k.k2
  | _ => k.k3

/-- Source `init` (acorn.go lines 118-133), its panic-free body: reset,
absorb the four key words, the sixteen nonce bytes, `k[0] ^ 0x01`, and
47 further key words indexed by `i % 128 / 32` for
`i = 32, 64, ..., 1504`. -/
def initCore (k : Key) (iv : List Nat) : State :=
  let s := reset
  let s := (List.range 4).foldl (fun st i => (update32 st (k.get i) one one).1) s
  let s := iv.foldl (fun st b => (update8 st b one one).1) s
  let s := (update32 s (k.k0 ^^^ 0x01) one one).1
  (List.range' 32 47 32).foldl (fun st i => (update32 st (k.get (i % 128 / 32)) one one).1) s

/-- Source `init` with its length guard: Go panics when
`len(iv)*8 != 128`; the panic is modelled as `none`. -/
def initState (k : Key) (iv : List Nat) : Option State :=
  if iv.length * 8 = 128 then some (initCore k iv) else none

/-- Source `pad` (acorn.go lines 135-143): one wide update of `0x01`,
then the loops `for i := 32; i < 128; i += 32` and
`for i := 128; i < 256; i += 32` of zero-valued wide updates. -/
def pad (s : State) (cb : Nat) : State :=
  let s := (update32 s 0x01 one cb).1
  let s := (List.range' 32 3 32).foldl (fun st _ => (update32 st 0x00 one cb).1) s
  (List.range' 128 4 32).foldl (fun st _ => (update32 st 0x00 0 cb).1) s

/-- Source `process` (acorn.go lines 145-150): absorb each associated
data byte through a narrow update, then pad with `cb = one`. -/
def process (s : State) (ad : List Nat) : State :=
  pad (ad.foldl (fun st x => (update8 st x one one).1) s) one

/-- Go `binary.LittleEndian.Uint32` on four bytes. -/
def le32 (b0 b1 b2 b3 : Nat) : Nat :=
  b0 ||| b1 <<< 8 ||| b2 <<< 16 ||| b3 <<< 24

/-- Go `binary.LittleEndian.PutUint32`: the four little-endian bytes of a
32-bit word. -/
def leBytes (y : Nat) : List Nat :=
  [y % 256, (y >>> 8) % 256, (y >>> 16) % 256, (y >>> 24) % 256]

/-- The second loop of source `crypt` (acorn.go lines 160-164): the
remaining bytes, one narrow update each, output `x ^ uint8(ks)`. -/
def cryptBytes (s : State) (src : List Nat) (mode : Nat) : State × List Nat :=
  match src with
  | [] => (s, [])
  | x :: rest =>
    let p := update8 s x one mode
    let r := cryptBytes p.1 rest mode
    (r.1, (x ^^^ p.2 % 256) :: r.2)

/-- The first loop of source `crypt` (acorn.go lines 154-159): while at
least four source bytes remain, one wide update per little-endian word,
output `x ^ ks`; then the byte loop on the remainder. -/
def cryptLoop (s : State) (src : List Nat) (mode : Nat) : State × List Nat :=
  match src with
  | b0 :: b1 :: b2 :: b3 :: rest =>
    let x := le32 b0 b1 b2 b3
    let p := update32 s (u32 x) one mode
    let y := u32 (x ^^^ p.2)
    let r := cryptLoop p.1 rest mode
    (r.1, leBytes y ++ r.2)
  | bs => cryptBytes s bs mode

/-- Source `crypt` (acorn.go lines 152-166): both loops, then pad with
`cb = 0`.  Returns the final state and the destination bytes. -/
def crypt (s : State) (src : List Nat) (mode : Nat) : State × List Nat :=
  let r := cryptLoop s src mode
  (pad r.1 0, r.2)

/-- The tag-extraction loop of source `finalize` (acorn.go lines
172-175): `n` narrow updates of value 0, each producing one tag byte. -/
def tagBytes (s : State) : Nat → State × List Nat
  | 0 => (s, [])
  | n + 1 =>
    let p := update8 s 0 one one
    let r := tagBytes p.1 n
    (r.1, p.2 % 256 :: r.2)

/-- Source `finalize` (acorn.go lines 168-177): the loop
`for i := 0; i < 640; i += 32` of zero-valued wide updates, then sixteen
tag bytes. -/
def finalizeTag (s : State) : List Nat :=
  (tagBytes ((List.range' 0 20 32).foldl (fun st _ => (update32 st 0 one one).1) s) 16).2

/-- Go `subtle.ConstantTimeCompare`: 1 when the two byte slices have
equal length and contents, 0 otherwise (the accumulated or of the
bytewise xors). -/
def constantTimeCompare (x y : List Nat) : Nat :=
  if x.length ≠ y.length then 0
  else if (List.zipWith (fun a b => a ^^^ b) x y).foldl (fun v w => v ||| w) 0 = 0 then 1
  else 0

/-- Source `NewAEAD` (aead.go lines 47-59): panics (modelled `none`) on a
key of length other than 16, otherwise packs four little-endian words. -/
def newAEAD (key : List Nat) : Option Key :=
  if key.length ≠ 16 then none
  else some ⟨le32 (key.getD 0 0) (key.getD 1 0) (key.getD 2 0) (key.getD 3 0),
    le32 (key.getD 4 0) (key.getD 5 0) (key.getD 6 0) (key.getD 7 0),
    le32 (key.getD 8 0) (key.getD 9 0) (key.getD 10 0) (key.getD 11 0),
    le32 (key.getD 12 0) (key.getD 13 0) (key.getD 14 0) (key.getD 15 0)⟩

/-- Source `Seal` (aead.go lines 69-83): panic (modelled `none`) on a bad
nonce length; otherwise init, process, crypt with `mode = 0`, finalize,
and append ciphertext then tag to `dst`. -/
def sealAEAD (k : Key) (dst nonce plaintext ad : List Nat) : Option (List Nat) :=
  if nonce.length ≠ 16 then none
  else
    let s := initCore k nonce
    let s := process s ad
    let r := crypt s plaintext 0
    some (dst ++ r.2 ++ finalizeTag r.1)

/-- Result of the Go `Open` (aead.go lines 87-102): either one of its two
panics (invalid nonce length inside `init`; negative slice bound at
`ciphertext[:n]` when the input is shorter than `TagSize`), or the
authentication failure `(dst, errDecryption)`, or success. -/
inductive OpenOut where
  | panicInvalidIv : OpenOut
  | panicSliceBounds : OpenOut
  | authFail (dst : List Nat) : OpenOut
  | ok (out : List Nat) : OpenOut
deriving DecidableEq, Repr

/-- Source `Open` (aead.go lines 87-102): init (panics on bad nonce),
process, split off the trailing 16-byte tag (panics when the input is
shorter than `TagSize`), crypt with `mode = one`, finalize, constant-time
compare; on mismatch return `dst` with the error, otherwise `dst`
followed by the recovered plaintext. -/
def openAEAD (k : Key) (dst nonce ciphertext ad : List Nat) : OpenOut :=
  match initState k nonce with
  | none => .panicInvalidIv
  | some s =>
    let s := process s ad
    if ciphertext.length < 16 then .panicSliceBounds
    else
      let n := ciphertext.length - 16
      let data := ciphertext.take n
      let tag := ciphertext.drop n
      let r := crypt s data one
      let expectedTag := finalizeTag r.1
      if constantTimeCompare tag expectedTag = 0 then .authFail dst
      else .ok (dst ++ r.2)

/-! ## Spec-shaped definitions

These follow the wording of the specification (not the source) and are
used on the right-hand side of the refinement claims. -/

/-- Modelled from the spec wording of the padding step: exactly eight
wide updates, one unit of value `0x01` with `ca = all-ones`, three
zero-valued units with `ca = all-ones`, then four zero-valued units with
`ca = 0`, all with the given `cb`, keystream discarded. -/
def padSpec (s : State) (cb : Nat) : State :=
  let s := (update32 s 0x01 one cb).1
  let s := (update32 s 0 one cb).1
  let s := (update32 s 0 one cb).1
  let s := (update32 s 0 one cb).1
  let s := (update32 s 0 0 cb).1
  let s := (update32 s 0 0 cb).1
  let s := (update32 s 0 0 cb).1
  (update32 s 0 0 cb).1

/-- Modelled from the spec wording of initialization: reset; the four
key words through wide updates with both masks all-ones; each nonce byte
through a narrow update with both masks all-ones; `key[0] XOR 1` through
one wide update; then 47 wide updates cycling through the key words in
order `k1, k2, k3, k0, k1, ...`, all keystream discarded. -/
def initSpec (k : Key) (iv : List Nat) : State :=
  let s := [k.k0, k.k1, k.k2, k.k3].foldl (fun st w => (update32 st w one one).1) reset
  let s := iv.foldl (fun st b => (update8 st b one one).1) s
  let s := (update32 s (k.k0 ^^^ 0x01) one one).1
  (List.range 47).foldl (fun st j => (update32 st (k.get ((j + 1) % 4)) one one).1) s

/-- The little-endian 32-bit words of a byte list whose length is a
multiple of four (a trailing group of fewer than four bytes is ignored). -/
def toWords : List Nat → List Nat
  | b0 :: b1 :: b2 :: b3 :: rest => le32 b0 b1 b2 b3 :: toWords rest
  | _ => []

/-- One wide update per word: `ks = update32(word, all-ones, mode)` XORed
into the word and written out little-endian. -/
def cryptWords (s : State) (ws : List Nat) (mode : Nat) : State × List Nat :=
  match ws with
  | [] => (s, [])
  | w :: rest =>
    let p := update32 s (u32 w) one mode
    let y := u32 (w ^^^ p.2)
    let r := cryptWords p.1 rest mode
    (r.1, leBytes y ++ r.2)

/-- Modelled from the spec wording of the message transform: the aligned
4-byte groups (`src.take (4 * (src.length / 4))`) as little-endian words
through the wide path with `ca = all-ones, cb = mode`; the remaining
fewer-than-four bytes through the narrow path; then the padding step with
`cb = 0`. -/
def cryptSpec (s : State) (src : List Nat) (mode : Nat) : State × List Nat :=
  let n4 := 4 * (src.length / 4)
  let r1 := cryptWords s (toWords (src.take n4)) mode
  let r2 := cryptBytes r1.1 (src.drop n4) mode
  (padSpec r2.1 0, r1.2 ++ r2.2)

/-! ## General helper lemmas about `Nat` bit manipulation -/

/-- The 8-bit mask of the source is reduction modulo 256. -/
theorem and255 (x : Nat) : x &&& 0xFF = x % 256 :=
  Nat.and_pow_two_sub_one_eq_mod x 8

/-- Truncation to 32 bits is reduction modulo `2^32`. -/
theorem u32_eq_mod (x : Nat) : u32 x = x % 2 ^ 32 := rfl

/-- A truncated value is below `2^32`. -/
theorem u32_lt (x : Nat) : u32 x < 2 ^ 32 :=
  Nat.mod_lt _ (by norm_num)

/-- Truncation is the identity below `2^32`. -/
theorem u32_of_lt {x : Nat} (h : x < 2 ^ 32) : u32 x = x :=
  Nat.mod_eq_of_lt h

/-- Masking with the all-ones word keeps a 32-bit value unchanged. -/
theorem one_and_of_lt {x : Nat} (h : x < 2 ^ 32) : one &&& x = x := by
  rw [Nat.and_comm]
  exact Nat.and_pow_two_sub_one_of_lt_two_pow h

/-- A bit of the all-ones 32-bit mask. -/
theorem testBit_mask32 (i : Nat) : Nat.testBit 0xFFFFFFFF i = decide (i < 32) :=
  Nat.testBit_two_pow_sub_one 32 i

/-- Bits at or above the width of a bounded value are clear. -/
theorem testBit_of_lt_of_le {x n i : Nat} (hx : x < 2 ^ n) (hi : n ≤ i) :
    Nat.testBit x i = false :=
  Nat.testBit_lt_two_pow (lt_of_lt_of_le hx (Nat.pow_le_pow_right (by norm_num) hi))

/-! ## Claim theorems: known-answer vector, combiners, sequencing -/

set_option maxRecDepth 100000 in
set_option maxHeartbeats 1000000 in
/-- C2.  Known-answer vector: with the all-zero 16-byte key and nonce,
empty plaintext and empty associated data, the encrypted message part is
empty and Seal's output is exactly the 16-byte tag
`83 5e 53 17 89 6e 86 b2 44 71 43 c7 4f 6f fc 1e`. -/
theorem seal_known_answer_zero_vector :
    newAEAD (List.replicate 16 0) = some ⟨0, 0, 0, 0⟩ ∧
    (crypt (process (initCore ⟨0, 0, 0, 0⟩ (List.replicate 16 0)) []) [] 0).2 = [] ∧
    sealAEAD ⟨0, 0, 0, 0⟩ [] (List.replicate 16 0) [] [] =
      some [0x83, 0x5e, 0x53, 0x17, 0x89, 0x6e, 0x86, 0xb2,
        0x44, 0x71, 0x43, 0xc7, 0x4f, 0x6f, 0xfc, 0x1e] :=
  ⟨by decide, by decide, by decide⟩

/-- C4.  The boolean combiners equal the spec's formulas: for 32-bit
words, `maj` is bitwise majority `(x&y) | (x&z) | (y&z)` and `ch` is
bitwise choice `(x&y) | (~x&z)`. -/
theorem maj_ch_match_spec_formulas (x y z : Nat)
    (hx : x < 2 ^ 32) (hy : y < 2 ^ 32) (hz : z < 2 ^ 32) :
    maj x y z = (x &&& y) ||| (x &&& z) ||| (y &&& z) ∧
      ch x y z = (x &&& y) ||| (not32 x &&& z) := by
  constructor
  · apply Nat.eq_of_testBit_eq
    intro i
    simp only [maj, Nat.testBit_xor, Nat.testBit_and, Nat.testBit_or]
    generalize x.testBit i = a
    generalize y.testBit i = b
    generalize z.testBit i = c
    revert a b c
    decide
  · apply Nat.eq_of_testBit_eq
    intro i
    simp only [ch, not32, Nat.testBit_xor, Nat.testBit_and, Nat.testBit_or, testBit_mask32]
    by_cases hi : i < 32
    · simp only [hi, decide_True, Bool.xor_true]
      generalize x.testBit i = a
      generalize y.testBit i = b
      generalize z.testBit i = c
      revert a b c
      decide
    · have hxi : x.testBit i = false := testBit_of_lt_of_le hx (Nat.le_of_not_lt hi)
      simp [hi, hxi]

/-- Witness for C4 at concrete 32-bit inputs. -/
theorem maj_ch_match_spec_formulas_witness :
    (0x12345678 : Nat) < 2 ^ 32 ∧ (0x9ABCDEF0 : Nat) < 2 ^ 32 ∧ (0x0F0F0F0F : Nat) < 2 ^ 32 ∧
      (maj 0x12345678 0x9ABCDEF0 0x0F0F0F0F =
          (0x12345678 &&& 0x9ABCDEF0) ||| (0x12345678 &&& 0x0F0F0F0F) |||
            (0x9ABCDEF0 &&& 0x0F0F0F0F) ∧
        ch 0x12345678 0x9ABCDEF0 0x0F0F0F0F =
          (0x12345678 &&& 0x9ABCDEF0) ||| (not32 0x12345678 &&& 0x0F0F0F0F)) :=
  ⟨by decide, by decide, by decide,
    maj_ch_match_spec_formulas _ _ _ (by decide) (by decide) (by decide)⟩

/-- The source's key-absorption loop counter `i = 32, 64, ..., 1504`. -/
theorem range'_of_init : List.range' 32 47 32 = (List.range 47).map (fun j => 32 + 32 * j) := by
  decide

/-- C6.  The initialization sequence of the source equals the
spec-shaped sequence: zeroed segments, the four key words wide, the
nonce bytes narrow, `key[0] XOR 1` wide, then 47 wide updates cycling
through the key words in order, all keystream discarded. -/
theorem init_sequence (k : Key) (iv : List Nat) : initCore k iv = initSpec k iv := by
  have h1 : (List.range 4).foldl (fun st i => (update32 st (k.get i) one one).1) reset =
      [k.k0, k.k1, k.k2, k.k3].foldl (fun st w => (update32 st w one one).1) reset := by
    have hr4 : List.range 4 = [0, 1, 2, 3] := by decide
    rw [hr4]
    simp only [List.foldl_cons, List.foldl_nil, Key.get]
  have hidx : ∀ j : Nat, (32 + 32 * j) % 128 / 32 = (j + 1) % 4 := by
    intro j
    omega
  have h2 : ∀ s : State,
      (List.range' 32 47 32).foldl
          (fun st i => (update32 st (k.get (i % 128 / 32)) one one).1) s =
        (List.range 47).foldl
          (fun st j => (update32 st (k.get ((j + 1) % 4)) one one).1) s := by
    intro s
    rw [range'_of_init, List.foldl_map]
    simp only [hidx]
  simp only [initCore, initSpec]
  rw [h1, h2]

/-- C7.  The padding step is exactly eight wide updates (one `0x01` with
`ca = all-ones`, three zeros with `ca = all-ones`, four zeros with
`ca = 0`, all with the given `cb`), and `process` absorbs every
associated-data byte narrow with both masks all-ones and then always
pads with `cb = all-ones`, also on empty input. -/
theorem process_pad_structure :
    (∀ s cb, pad s cb = padSpec s cb) ∧
      (∀ s ad, process s ad =
        padSpec (ad.foldl (fun st x => (update8 st x one one).1) s) one) ∧
      ∀ s, process s [] = padSpec s one := by
  refine ⟨fun s cb => rfl, fun s ad => rfl, fun s => rfl⟩

/-- C9.  Length validation: construction with a key of length other than
16 panics, and Seal or Open with a nonce of length other than 16 panics,
in every case deterministically and without running any update on the
register. -/
theorem length_validation :
    (∀ key, key.length ≠ 16 → newAEAD key = none) ∧
      (∀ k dst nonce p ad, nonce.length ≠ 16 → sealAEAD k dst nonce p ad = none) ∧
      ∀ k dst nonce ct ad, nonce.length ≠ 16 →
        openAEAD k dst nonce ct ad = OpenOut.panicInvalidIv := by
  refine ⟨fun key h => ?_, fun k dst nonce p ad h => ?_, fun k dst nonce ct ad h => ?_⟩
  · simp [newAEAD, h]
  · simp [sealAEAD, h]
  · have hinit : initState k nonce = none := by
      simp only [initState, ite_eq_right_iff]
      intro hc
      exact absurd (by omega : nonce.length = 16) h
    simp [openAEAD, hinit]

/-- Witness for C9 at concrete wrong-length inputs. -/
theorem length_validation_witness :
    ([] : List Nat).length ≠ 16 ∧
      (newAEAD [] = none ∧ sealAEAD ⟨0, 0, 0, 0⟩ [] [] [] [] = none ∧
        openAEAD ⟨0, 0, 0, 0⟩ [] [] [] [] = OpenOut.panicInvalidIv) :=
  ⟨by decide,
    length_validation.1 [] (by decide),
    length_validation.2.1 ⟨0, 0, 0, 0⟩ [] [] [] [] (by decide),
    length_validation.2.2 ⟨0, 0, 0, 0⟩ [] [] [] [] (by decide)⟩

/-- C10.  Open with a well-formed nonce but an input shorter than the
16-byte tag does not report an authentication failure: it panics at the
negative slice bound when splitting off the tag, before any comparison. -/
theorem open_short_input_panics (k : Key) (dst nonce ct ad : List Nat)
    (hn : nonce.length = 16) (hct : ct.length < 16) :
    openAEAD k dst nonce ct ad = OpenOut.panicSliceBounds := by
  have h1 : initState k nonce = some (initCore k nonce) := by
    simp [initState, hn]
  simp [openAEAD, h1, hct]

/-- Witness for C10: the empty ciphertext input with a 16-byte nonce. -/
theorem open_short_input_panics_witness :
    (List.replicate 16 0).length = 16 ∧ ([] : List Nat).length < 16 ∧
      openAEAD ⟨0, 0, 0, 0⟩ [] (List.replicate 16 0) [] [] = OpenOut.panicSliceBounds :=
  ⟨by decide, by decide,
    open_short_input_panics _ _ _ _ _ (by decide) (by decide)⟩

/-! ## Properties of the constant-time comparison -/

theorem or_eq_zero {a b : Nat} (h : a ||| b = 0) : a = 0 ∧ b = 0 := by
  have hb : ∀ i, (a.testBit i || b.testBit i) = false := by
    intro i
    have hc := congrArg (fun t => Nat.testBit t i) h
    simpa [Nat.testBit_or, Nat.zero_testBit] using hc
  constructor <;> apply Nat.eq_of_testBit_eq <;> intro i <;> rw [Nat.zero_testBit]
  · exact (Bool.or_eq_false_iff.mp (hb i)).1
  · exact (Bool.or_eq_false_iff.mp (hb i)).2

theorem foldl_or_eq_zero {l : List Nat} {acc : Nat}
    (h : l.foldl (fun v w => v ||| w) acc = 0) : acc = 0 ∧ ∀ v ∈ l, v = 0 := by
  induction l generalizing acc with
  | nil => exact ⟨h, by simp⟩
  | cons a l ih =>
    simp only [List.foldl_cons] at h
    obtain ⟨h1, h2⟩ := ih h
    obtain ⟨ha, hb⟩ := or_eq_zero h1
    refine ⟨ha, fun v hv => ?_⟩
    rcases List.mem_cons.mp hv with rfl | hv
    · exact hb
    · exact h2 v hv

theorem eq_of_zipWith_xor_zero {x y : List Nat} (hlen : x.length = y.length)
    (hall : ∀ v ∈ List.zipWith (fun a b => a ^^^ b) x y, v = 0) : x = y := by
  induction x generalizing y with
  | nil =>
    cases y with
    | nil => rfl
    | cons b m => simp at hlen
  | cons a l ih =>
    cases y with
    | nil => simp at hlen
    | cons b m =>
      have hab : a ^^^ b = 0 := hall _ (by simp)
      have h1 : a = b := Nat.xor_eq_zero.mp hab
      have h2 : l = m := by
        apply ih (by simpa using hlen)
        intro v hv
        exact hall v (by simp [hv])
      rw [h1, h2]

theorem foldl_or_zipWith_self (l : List Nat) :
    (List.zipWith (fun a b => a ^^^ b) l l).foldl (fun v w => v ||| w) 0 = 0 := by
  induction l with
  | nil => rfl
  | cons a l ih => simpa using ih

theorem foldl_or_replicate_zero (n : Nat) :
    List.foldl (fun v w => v ||| w) 0 (List.replicate n 0) = 0 := by
  induction n with
  | zero => rfl
  | succ n ih => simpa using ih

theorem constantTimeCompare_self (x : List Nat) : constantTimeCompare x x = 1 := by
  simp [constantTimeCompare, foldl_or_zipWith_self, foldl_or_replicate_zero]

theorem constantTimeCompare_eq_zero {x y : List Nat} (hlen : x.length = y.length)
    (h : x ≠ y) : constantTimeCompare x y = 0 := by
  have hz : ¬(List.zipWith (fun a b => a ^^^ b) x y).foldl (fun v w => v ||| w) 0 = 0 := by
    intro hz
    exact h (eq_of_zipWith_xor_zero hlen (foldl_or_eq_zero hz).2)
  simp [constantTimeCompare, hlen, hz]

theorem tagBytes_length (n : Nat) : ∀ s, (tagBytes s n).2.length = n := by
  induction n with
  | zero => intro s; rfl
  | succ n ih => intro s; simp [tagBytes, ih]

theorem finalizeTag_length (s : State) : (finalizeTag s).length = 16 := by
  unfold finalizeTag
  rw [tagBytes_length]

/-- C8.  On tag mismatch (the trailing 16 input bytes differ from the
recomputed tag), Open returns the typed authentication failure carrying
exactly the unmodified `dst`, with no candidate-plaintext bytes
appended. -/
theorem open_tag_mismatch (k : Key) (dst nonce ct ad : List Nat)
    (hn : nonce.length = 16) (hlen : 16 ≤ ct.length)
    (hmt : ct.drop (ct.length - 16) ≠
      finalizeTag (crypt (process (initCore k nonce) ad) (ct.take (ct.length - 16)) one).1) :
    openAEAD k dst nonce ct ad = OpenOut.authFail dst := by
  have h1 : initState k nonce = some (initCore k nonce) := by
    simp [initState, hn]
  have hct : ¬ct.length < 16 := by omega
  have hdl : (ct.drop (ct.length - 16)).length =
      (finalizeTag (crypt (process (initCore k nonce) ad)
        (ct.take (ct.length - 16)) one).1).length := by
    rw [finalizeTag_length, List.length_drop]
    omega
  have hcmp := constantTimeCompare_eq_zero hdl hmt
  simp [openAEAD, h1, hct, hcmp]

/-! ## Named components of the transition engine

Each definition below names one local of the source update functions as
a function of the pre-update state; `update8_eq` and `update32_eq`
restate the update functions in terms of them, definitionally. -/

def t244 (s : State) : Nat := u32 (s.s230 >>> 14)

def t235 (s : State) : Nat := u32 (s.s230 >>> 5)

def t196 (s : State) : Nat := u32 (s.s193 >>> 3)

def t160 (s : State) : Nat := u32 (s.s154 >>> 6)

def t111 (s : State) : Nat := u32 (s.s107 >>> 4)

def t66 (s : State) : Nat := u32 (s.s61 >>> 5)

def t23 (s : State) : Nat := u32 (s.s0 >>> 23)

def t12 (s : State) : Nat := u32 (s.s0 >>> 12)

def t0 (s : State) : Nat := u32 s.s0

def x289w (s : State) : Nat := t235 s ^^^ u32 s.s230

def n230w (s : State) : Nat := u32 s.s230 ^^^ t196 s ^^^ u32 s.s193

def n193w (s : State) : Nat := u32 s.s193 ^^^ t160 s ^^^ u32 s.s154

def n154w (s : State) : Nat := u32 s.s154 ^^^ t111 s ^^^ u32 s.s107

def n107w (s : State) : Nat := u32 s.s107 ^^^ t66 s ^^^ u32 s.s61

def n61w (s : State) : Nat := u32 s.s61 ^^^ t23 s ^^^ t0 s

def ksw (s : State) : Nat :=
  t12 s ^^^ n154w s ^^^ maj (t235 s) (n61w s) (n193w s) ^^^ ch (n230w s) (t111 s) (t66 s)

def fw (s : State) (ca cb : Nat) : Nat :=
  t0 s ^^^ not32 (n107w s) ^^^ maj (t244 s) (t23 s) (t160 s) ^^^ (ca &&& t196 s) ^^^
    (cb &&& ksw s)

theorem update32_eq (s : State) (m ca cb : Nat) :
    update32 s m ca cb =
      (⟨s.s230 >>> 32 ^^^ x289w s <<< 27 ^^^ (fw s ca cb ^^^ m) <<< 31,
        s.s193 >>> 32 ^^^ n230w s <<< 5,
        s.s154 >>> 32 ^^^ n193w s <<< 7,
        s.s107 >>> 32 ^^^ n154w s <<< 15,
        s.s61 >>> 32 ^^^ n107w s <<< 14,
        s.s0 >>> 32 ^^^ n61w s <<< 29⟩, ksw s) := rfl

def x289b (s : State) : Nat := (t235 s ^^^ u32 s.s230) &&& 0xFF

def n230b (s : State) : Nat := (u32 s.s230 ^^^ t196 s ^^^ u32 s.s193) &&& 0xFF

def n193b (s : State) : Nat := (u32 s.s193 ^^^ t160 s ^^^ u32 s.s154) &&& 0xFF

def n154b (s : State) : Nat := (u32 s.s154 ^^^ t111 s ^^^ u32 s.s107) &&& 0xFF

def n107b (s : State) : Nat := (u32 s.s107 ^^^ t66 s ^^^ u32 s.s61) &&& 0xFF

def n61b (s : State) : Nat := (u32 s.s61 ^^^ t23 s ^^^ t0 s) &&& 0xFF

def ks8 (s : State) : Nat :=
  (t12 s ^^^ n154b s ^^^ maj (t235 s) (n61b s) (n193b s) ^^^ ch (n230b s) (t111 s) (t66 s)) &&&
    0xFF

def f8 (s : State) (ca cb : Nat) : Nat :=
  (t0 s ^^^ not32 (n107b s) ^^^ maj (t244 s) (t23 s) (t160 s) ^^^ (ca &&& t196 s) ^^^
    (cb &&& ks8 s)) &&& 0xFF

theorem update8_eq (s : State) (m ca cb : Nat) :
    update8 s m ca cb =
      (⟨s.s230 >>> 8 ^^^ x289b s <<< 51 ^^^ ((f8 s ca cb ^^^ m) &&& 0xFF) <<< 55,
        s.s193 >>> 8 ^^^ n230b s <<< 29,
        s.s154 >>> 8 ^^^ n193b s <<< 31,
        s.s107 >>> 8 ^^^ n154b s <<< 39,
        s.s61 >>> 8 ^^^ n107b s <<< 38,
        s.s0 >>> 8 ^^^ n61b s <<< 53⟩, ks8 s) := rfl

theorem update32_snd (s : State) (m ca cb : Nat) : (update32 s m ca cb).2 = ksw s := rfl

theorem update8_snd (s : State) (m ca cb : Nat) : (update8 s m ca cb).2 = ks8 s := rfl

/-! ## Bounds on the components -/

theorem maj_lt {x y z n : Nat} (hy : y < 2 ^ n) (hz : z < 2 ^ n) : maj x y z < 2 ^ n :=
  Nat.xor_lt_two_pow
    (Nat.xor_lt_two_pow (Nat.and_lt_two_pow _ hy) (Nat.and_lt_two_pow _ hz))
    (Nat.and_lt_two_pow _ hz)

theorem ch_lt {x y z n : Nat} (hy : y < 2 ^ n) (hz : z < 2 ^ n) : ch x y z < 2 ^ n :=
  Nat.xor_lt_two_pow (Nat.and_lt_two_pow _ hy) (Nat.and_lt_two_pow _ hz)

theorem n154w_lt (s : State) : n154w s < 2 ^ 32 :=
  Nat.xor_lt_two_pow (Nat.xor_lt_two_pow (u32_lt _) (u32_lt _)) (u32_lt _)

theorem n193w_lt (s : State) : n193w s < 2 ^ 32 :=
  Nat.xor_lt_two_pow (Nat.xor_lt_two_pow (u32_lt _) (u32_lt _)) (u32_lt _)

theorem n61w_lt (s : State) : n61w s < 2 ^ 32 :=
  Nat.xor_lt_two_pow (Nat.xor_lt_two_pow (u32_lt _) (u32_lt _)) (u32_lt _)

theorem ksw_lt (s : State) : ksw s < 2 ^ 32 :=
  Nat.xor_lt_two_pow
    (Nat.xor_lt_two_pow (Nat.xor_lt_two_pow (u32_lt _) (n154w_lt s))
      (maj_lt (n61w_lt s) (n193w_lt s)))
    (ch_lt (u32_lt _) (u32_lt _))

theorem ks8_lt (s : State) : ks8 s < 256 := by
  unfold ks8
  rw [and255]
  exact Nat.mod_lt _ (by norm_num)

/-! ## Encrypt and decrypt drive the register identically -/

theorem xor_xor_cancel (a k x : Nat) : (a ^^^ k) ^^^ (x ^^^ k) = a ^^^ x := by
  rw [Nat.xor_comm x k, ← Nat.xor_assoc, Nat.xor_assoc a k k, Nat.xor_self, Nat.xor_zero]

theorem fw_encdec (s : State) (x : Nat) :
    fw s one one ^^^ (x ^^^ ksw s) = fw s one 0 ^^^ x := by
  unfold fw
  rw [Nat.zero_and, Nat.xor_zero, one_and_of_lt (ksw_lt s)]
  exact xor_xor_cancel _ _ _

theorem update32_state_encdec (s : State) (x : Nat) :
    (update32 s (x ^^^ ksw s) one one).1 = (update32 s x one 0).1 := by
  rw [update32_eq, update32_eq]
  simp only [fw_encdec]

theorem and_mask_xor (a b M : Nat) : ((a &&& M) ^^^ b) &&& M = (a ^^^ b) &&& M := by
  rw [Nat.and_xor_distrib_right, Nat.and_xor_distrib_right, Nat.and_assoc, Nat.and_self]

theorem f8_encdec (s : State) (x : Nat) :
    (f8 s one one ^^^ (x ^^^ ks8 s % 256)) &&& 0xFF = (f8 s one 0 ^^^ x) &&& 0xFF := by
  rw [Nat.mod_eq_of_lt (ks8_lt s)]
  unfold f8
  rw [Nat.zero_and, Nat.xor_zero, one_and_of_lt (lt_trans (ks8_lt s) (by norm_num))]
  rw [and_mask_xor, and_mask_xor, xor_xor_cancel]

theorem update8_state_encdec (s : State) (x : Nat) :
    (update8 s (x ^^^ ks8 s % 256) one one).1 = (update8 s x one 0).1 := by
  rw [update8_eq, update8_eq]
  simp only [f8_encdec]

/-! ## Little-endian serialization lemmas -/

theorem testBit_le32 (b0 b1 b2 b3 i : Nat) :
    (le32 b0 b1 b2 b3).testBit i =
      (((b0.testBit i || (decide (8 ≤ i) && b1.testBit (i - 8))) ||
          (decide (16 ≤ i) && b2.testBit (i - 16))) ||
        (decide (24 ≤ i) && b3.testBit (i - 24))) := by
  unfold le32
  simp only [Nat.testBit_or, Nat.testBit_shiftLeft]

theorem le32_lt {b0 b1 b2 b3 : Nat} (h0 : b0 < 256) (h1 : b1 < 256)
    (h2 : b2 < 256) (h3 : b3 < 256) : le32 b0 b1 b2 b3 < 2 ^ 32 := by
  unfold le32
  apply Nat.or_lt_two_pow
  apply Nat.or_lt_two_pow
  apply Nat.or_lt_two_pow
  · omega
  · rw [Nat.shiftLeft_eq]
    norm_num
    omega
  · rw [Nat.shiftLeft_eq]
    norm_num
    omega
  · rw [Nat.shiftLeft_eq]
    norm_num
    omega

theorem le32_byte0 {b0 b1 b2 b3 : Nat} (h0 : b0 < 256) :
    le32 b0 b1 b2 b3 % 256 = b0 := by
  apply Nat.eq_of_testBit_eq
  intro i
  rw [show (256 : Nat) = 2 ^ 8 from rfl, Nat.testBit_mod_two_pow, testBit_le32]
  by_cases hi : i < 8
  · simp [hi, show ¬8 ≤ i by omega, show ¬16 ≤ i by omega, show ¬24 ≤ i by omega]
  · simp [hi, testBit_of_lt_of_le h0 (by omega : 8 ≤ i)]

theorem le32_byte1 {b0 b1 b2 b3 : Nat} (h0 : b0 < 256) (h1 : b1 < 256) :
    le32 b0 b1 b2 b3 >>> 8 % 256 = b1 := by
  apply Nat.eq_of_testBit_eq
  intro i
  rw [show (256 : Nat) = 2 ^ 8 from rfl, Nat.testBit_mod_two_pow, Nat.testBit_shiftRight,
    testBit_le32]
  by_cases hi : i < 8
  · simp [hi, testBit_of_lt_of_le h0 (by omega : 8 ≤ 8 + i),
      show (8 : Nat) ≤ 8 + i by omega, show ¬16 ≤ 8 + i by omega,
      show ¬24 ≤ 8 + i by omega, show 8 + i - 8 = i by omega]
  · simp [hi, testBit_of_lt_of_le h1 (by omega : 8 ≤ i)]

theorem le32_byte2 {b0 b1 b2 b3 : Nat} (h0 : b0 < 256) (h1 : b1 < 256) (h2 : b2 < 256) :
    le32 b0 b1 b2 b3 >>> 16 % 256 = b2 := by
  apply Nat.eq_of_testBit_eq
  intro i
  rw [show (256 : Nat) = 2 ^ 8 from rfl, Nat.testBit_mod_two_pow, Nat.testBit_shiftRight,
    testBit_le32]
  by_cases hi : i < 8
  · simp [hi, testBit_of_lt_of_le h0 (by omega : 8 ≤ 16 + i),
      testBit_of_lt_of_le h1 (by omega : 8 ≤ 16 + i - 8),
      show (8 : Nat) ≤ 16 + i by omega, show (16 : Nat) ≤ 16 + i by omega,
      show ¬24 ≤ 16 + i by omega, show 16 + i - 16 = i by omega]
  · simp [hi, testBit_of_lt_of_le h2 (by omega : 8 ≤ i)]

theorem le32_byte3 {b0 b1 b2 b3 : Nat} (h0 : b0 < 256) (h1 : b1 < 256) (h2 : b2 < 256)
    (h3 : b3 < 256) : le32 b0 b1 b2 b3 >>> 24 % 256 = b3 := by
  apply Nat.eq_of_testBit_eq
  intro i
  rw [show (256 : Nat) = 2 ^ 8 from rfl, Nat.testBit_mod_two_pow, Nat.testBit_shiftRight,
    testBit_le32]
  by_cases hi : i < 8
  · simp [hi, testBit_of_lt_of_le h0 (by omega : 8 ≤ 24 + i),
      testBit_of_lt_of_le h1 (by omega : 8 ≤ 24 + i - 8),
      testBit_of_lt_of_le h2 (by omega : 8 ≤ 24 + i - 16),
      show (8 : Nat) ≤ 24 + i by omega, show (16 : Nat) ≤ 24 + i by omega,
      show (24 : Nat) ≤ 24 + i by omega, show 24 + i - 24 = i by omega]
  · simp [hi, testBit_of_lt_of_le h3 (by omega : 8 ≤ i)]

theorem leBytes_le32 {b0 b1 b2 b3 : Nat} (h0 : b0 < 256) (h1 : b1 < 256) (h2 : b2 < 256)
    (h3 : b3 < 256) : leBytes (le32 b0 b1 b2 b3) = [b0, b1, b2, b3] := by
  unfold leBytes
  rw [le32_byte0 h0, le32_byte1 h0 h1, le32_byte2 h0 h1 h2, le32_byte3 h0 h1 h2 h3]

theorem le32_leBytes {y : Nat} (hy : y < 2 ^ 32) :
    le32 (y % 256) (y >>> 8 % 256) (y >>> 16 % 256) (y >>> 24 % 256) = y := by
  apply Nat.eq_of_testBit_eq
  intro i
  rw [testBit_le32]
  simp only [show (256 : Nat) = 2 ^ 8 from rfl, Nat.testBit_mod_two_pow,
    Nat.testBit_shiftRight]
  by_cases h1 : i < 8
  · simp [h1, show ¬8 ≤ i by omega, show ¬16 ≤ i by omega, show ¬24 ≤ i by omega]
  · by_cases h2 : i < 16
    · simp [h1, show (8 : Nat) ≤ i by omega, show ¬16 ≤ i by omega,
        show ¬24 ≤ i by omega, show i - 8 < 8 by omega, show 8 + (i - 8) = i by omega]
    · by_cases h3 : i < 24
      · simp [h1, show (8 : Nat) ≤ i by omega, show (16 : Nat) ≤ i by omega,
          show ¬24 ≤ i by omega, show ¬i - 8 < 8 by omega, show i - 16 < 8 by omega,
          show 16 + (i - 16) = i by omega]
      · by_cases h4 : i < 32
        · simp [h1, show (8 : Nat) ≤ i by omega, show (16 : Nat) ≤ i by omega,
            show (24 : Nat) ≤ i by omega, show ¬i - 8 < 8 by omega,
            show ¬i - 16 < 8 by omega, show i - 24 < 8 by omega,
            show 24 + (i - 24) = i by omega]
        · simp [show ¬i < 8 by omega, show ¬i - 8 < 8 by omega, show ¬i - 16 < 8 by omega,
            show ¬i - 24 < 8 by omega, testBit_of_lt_of_le hy (by omega : 32 ≤ i)]

/-! ## The decryption pass inverts the encryption pass -/

theorem cryptBytes_roundtrip (src : List Nat) : ∀ s : State,
    cryptBytes s (cryptBytes s src 0).2 one = ((cryptBytes s src 0).1, src) := by
  induction src with
  | nil => intro s; rfl
  | cons x rest ih =>
    intro s
    simp only [cryptBytes, update8_snd]
    rw [update8_state_encdec, ih]
    simp [Nat.xor_assoc]

theorem cryptBytes_length (src : List Nat) : ∀ (s : State) (m : Nat),
    (cryptBytes s src m).2.length = src.length := by
  induction src with
  | nil => intro s m; rfl
  | cons x rest ih =>
    intro s m
    simp [cryptBytes, ih]

theorem cryptLoop_short : ∀ {src : List Nat}, src.length ≤ 3 → ∀ (s : State) (m : Nat),
    cryptLoop s src m = cryptBytes s src m
  | [], _, _, _ => rfl
  | [_], _, _, _ => rfl
  | [_, _], _, _, _ => rfl
  | [_, _, _], _, _, _ => rfl
  | _ :: _ :: _ :: _ :: _, h, _, _ => by
    simp only [List.length_cons] at h
    omega

theorem cryptLoop_length : ∀ (src : List Nat) (s : State) (m : Nat),
    (cryptLoop s src m).2.length = src.length
  | b0 :: b1 :: b2 :: b3 :: rest, s, m => by
    simp only [cryptLoop]
    simp [leBytes, cryptLoop_length rest]
  | [], s, m => rfl
  | [a], s, m => by
    rw [cryptLoop_short (by simp) s m]
    exact cryptBytes_length _ _ _
  | [a, b], s, m => by
    rw [cryptLoop_short (by simp) s m]
    exact cryptBytes_length _ _ _
  | [a, b, c], s, m => by
    rw [cryptLoop_short (by simp) s m]
    exact cryptBytes_length _ _ _

theorem cryptLoop_roundtrip_short {src : List Nat} (h : src.length ≤ 3) (s : State) :
    cryptLoop s (cryptLoop s src 0).2 one = ((cryptLoop s src 0).1, src) := by
  rw [cryptLoop_short h s 0]
  rw [cryptLoop_short (by rw [cryptBytes_length]; exact h) s one]
  exact cryptBytes_roundtrip src s

theorem cryptLoop_roundtrip : ∀ (src : List Nat), (∀ b ∈ src, b < 256) → ∀ s : State,
    cryptLoop s (cryptLoop s src 0).2 one = ((cryptLoop s src 0).1, src)
  | b0 :: b1 :: b2 :: b3 :: rest, hb, s => by
    have h0 : b0 < 256 := hb b0 (by simp)
    have h1 : b1 < 256 := hb b1 (by simp)
    have h2 : b2 < 256 := hb b2 (by simp)
    have h3 : b3 < 256 := hb b3 (by simp)
    have hx : le32 b0 b1 b2 b3 < 2 ^ 32 := le32_lt h0 h1 h2 h3
    have hy : le32 b0 b1 b2 b3 ^^^ ksw s < 2 ^ 32 := Nat.xor_lt_two_pow hx (ksw_lt s)
    have hxc : (le32 b0 b1 b2 b3 ^^^ ksw s) ^^^ ksw s = le32 b0 b1 b2 b3 := by
      rw [Nat.xor_assoc, Nat.xor_self, Nat.xor_zero]
    have ih := cryptLoop_roundtrip rest (fun b hbm => hb b (by simp [hbm]))
    simp only [cryptLoop, update32_snd, u32_of_lt hx, u32_of_lt hy, leBytes,
      List.append_eq, List.cons_append, List.nil_append, le32_leBytes hy,
      update32_state_encdec s, hxc, le32_byte0 h0, le32_byte1 h0 h1, le32_byte2 h0 h1 h2,
      le32_byte3 h0 h1 h2 h3, ih]
  | [], _, s => cryptLoop_roundtrip_short (by simp) s
  | [a], _, s => cryptLoop_roundtrip_short (by simp) s
  | [a, b], _, s => cryptLoop_roundtrip_short (by simp) s
  | [a, b, c], _, s => cryptLoop_roundtrip_short (by simp) s

theorem crypt_length (s : State) (src : List Nat) (m : Nat) :
    (crypt s src m).2.length = src.length := by
  rw [show (crypt s src m).2 = (cryptLoop s src m).2 from rfl, cryptLoop_length]

theorem crypt_roundtrip {src : List Nat} (hb : ∀ b ∈ src, b < 256) (s : State) :
    crypt s (crypt s src 0).2 one = ((crypt s src 0).1, src) := by
  simp only [crypt]
  rw [cryptLoop_roundtrip src hb s]

/-- C1.  Round trip: for every 16-byte key, 16-byte nonce, plaintext of
bytes and associated data, Open applied to the output of Seal with the
same key, nonce and associated data succeeds and returns exactly the
plaintext. -/
theorem seal_open_roundtrip (kb : List Nat) (k : Key) (nonce p ad : List Nat)
    (hk : newAEAD kb = some k) (hn : nonce.length = 16) (hp : ∀ b ∈ p, b < 256) :
    ∀ out, sealAEAD k [] nonce p ad = some out →
      openAEAD k [] nonce out ad = OpenOut.ok p := by
  intro out hout
  have hseal : sealAEAD k [] nonce p ad =
      some ((crypt (process (initCore k nonce) ad) p 0).2 ++
        finalizeTag (crypt (process (initCore k nonce) ad) p 0).1) := by
    simp [sealAEAD, hn]
  rw [hseal] at hout
  injection hout with hout
  subst hout
  have h1 : initState k nonce = some (initCore k nonce) := by
    simp [initState, hn]
  have hclen : (crypt (process (initCore k nonce) ad) p 0).2.length = p.length :=
    crypt_length _ _ _
  have htlen : (finalizeTag (crypt (process (initCore k nonce) ad) p 0).1).length = 16 :=
    finalizeTag_length _
  have hlen2 : ((crypt (process (initCore k nonce) ad) p 0).2 ++
      finalizeTag (crypt (process (initCore k nonce) ad) p 0).1).length = p.length + 16 := by
    rw [List.length_append, hclen, htlen]
  have hnl : ¬((crypt (process (initCore k nonce) ad) p 0).2 ++
      finalizeTag (crypt (process (initCore k nonce) ad) p 0).1).length < 16 := by
    omega
  have hnn : ((crypt (process (initCore k nonce) ad) p 0).2 ++
      finalizeTag (crypt (process (initCore k nonce) ad) p 0).1).length - 16 =
      (crypt (process (initCore k nonce) ad) p 0).2.length := by
    omega
  simp only [openAEAD, h1, hnl, if_false, hnn]
  rw [List.take_left, List.drop_left]
  rw [crypt_roundtrip hp]
  rw [constantTimeCompare_self]
  simp

set_option maxRecDepth 100000 in
set_option maxHeartbeats 1000000 in
/-- Witness for C1: the zero key and nonce with plaintext `[0x01]` (the
repository's second test vector). -/
theorem seal_open_roundtrip_witness :
    newAEAD (List.replicate 16 0) = some ⟨0, 0, 0, 0⟩ ∧ (List.replicate 16 0).length = 16 ∧
      (∀ b ∈ [1], b < 256) ∧
      sealAEAD ⟨0, 0, 0, 0⟩ [] (List.replicate 16 0) [1] [] =
        some [0x2b, 0x4b, 0x60, 0x64, 0x0e, 0x26, 0xf0, 0xa9,
          0x9d, 0xd0, 0x1f, 0x93, 0xbf, 0x63, 0x49, 0x97, 0xcb] ∧
      openAEAD ⟨0, 0, 0, 0⟩ [] (List.replicate 16 0)
        [0x2b, 0x4b, 0x60, 0x64, 0x0e, 0x26, 0xf0, 0xa9,
          0x9d, 0xd0, 0x1f, 0x93, 0xbf, 0x63, 0x49, 0x97, 0xcb] [] = OpenOut.ok [1] :=
  ⟨by decide, by decide, by decide, by decide,
    seal_open_roundtrip (List.replicate 16 0) ⟨0, 0, 0, 0⟩ (List.replicate 16 0) [1] []
      (by decide) (by decide) (by decide) _ (by decide)⟩

/-! ## The message transform has the spec's group structure -/

theorem pad_eq_padSpec (s : State) (cb : Nat) : pad s cb = padSpec s cb := rfl

/-- The statement of the `crypt` refinement, for one source list. -/
def CryptSpecEq (src : List Nat) : Prop :=
  ∀ (s : State) (mode : Nat),
    cryptLoop s src mode =
      ((cryptBytes (cryptWords s (toWords (src.take (4 * (src.length / 4)))) mode).1
          (src.drop (4 * (src.length / 4))) mode).1,
        (cryptWords s (toWords (src.take (4 * (src.length / 4)))) mode).2 ++
          (cryptBytes (cryptWords s (toWords (src.take (4 * (src.length / 4)))) mode).1
            (src.drop (4 * (src.length / 4))) mode).2)

theorem cryptSpecEq_short {src : List Nat} (h : src.length ≤ 3) : CryptSpecEq src := by
  intro s mode
  have h4 : 4 * (src.length / 4) = 0 := by omega
  rw [h4, List.take_zero, List.drop_zero]
  rw [cryptLoop_short h]
  rfl

theorem cryptSpecEq_cons (b0 b1 b2 b3 : Nat) (rest : List Nat) (ih : CryptSpecEq rest) :
    CryptSpecEq (b0 :: b1 :: b2 :: b3 :: rest) := by
  intro s mode
  have hq : 4 * ((b0 :: b1 :: b2 :: b3 :: rest).length / 4) = 4 * (rest.length / 4) + 4 := by
    simp only [List.length_cons]
    omega
  rw [hq]
  simp only [List.take_succ_cons, List.drop_succ_cons, toWords, cryptWords, cryptLoop]
  rw [ih]
  simp [List.append_assoc]

theorem cryptLoop_spec : ∀ src : List Nat, CryptSpecEq src := by
  have haux : ∀ (n : Nat) (src : List Nat), src.length ≤ n → CryptSpecEq src := by
    intro n
    induction n with
    | zero =>
      intro src hlen
      exact cryptSpecEq_short (by omega)
    | succ n ih =>
      intro src hlen
      match src with
      | [] => exact cryptSpecEq_short (by simp)
      | [a] => exact cryptSpecEq_short (by simp)
      | [a, b] => exact cryptSpecEq_short (by simp)
      | [a, b, c] => exact cryptSpecEq_short (by simp)
      | b0 :: b1 :: b2 :: b3 :: rest =>
        refine cryptSpecEq_cons b0 b1 b2 b3 rest (ih rest ?_)
        simp only [List.length_cons] at hlen
        omega
  exact fun src => haux src.length src (le_refl _)

theorem crypt_eq_cryptSpec (s : State) (src : List Nat) (mode : Nat) :
    crypt s src mode = cryptSpec s src mode := by
  have h := cryptLoop_spec src s mode
  simp only [crypt, cryptSpec, h, pad_eq_padSpec]

/-- C5.  The message transform processes every aligned 4-byte group with
one wide update (`ca = all-ones`, `cb = mode`) XORing the keystream into
the little-endian word, the remaining fewer-than-four bytes with narrow
updates, then pads with `cb = 0`; and the mode is 0 when called from
Seal and all-ones when called from Open. -/
theorem crypt_structure :
    (∀ s src mode, crypt s src mode = cryptSpec s src mode) ∧
      (∀ (k : Key) (dst nonce p ad : List Nat), nonce.length = 16 →
        sealAEAD k dst nonce p ad =
          some (dst ++ (crypt (process (initCore k nonce) ad) p 0).2 ++
            finalizeTag (crypt (process (initCore k nonce) ad) p 0).1)) ∧
      ∀ (k : Key) (dst nonce ct ad : List Nat), nonce.length = 16 → 16 ≤ ct.length →
        openAEAD k dst nonce ct ad =
          if constantTimeCompare (ct.drop (ct.length - 16))
              (finalizeTag (crypt (process (initCore k nonce) ad)
                (ct.take (ct.length - 16)) one).1) = 0 then
            OpenOut.authFail dst
          else
            OpenOut.ok (dst ++ (crypt (process (initCore k nonce) ad)
              (ct.take (ct.length - 16)) one).2) := by
  refine ⟨fun s src mode => crypt_eq_cryptSpec s src mode,
    fun k dst nonce p ad hn => ?_, fun k dst nonce ct ad hn hct => ?_⟩
  · simp [sealAEAD, hn]
  · have h1 : initState k nonce = some (initCore k nonce) := by
      simp [initState, hn]
    have hnl : ¬ct.length < 16 := by omega
    simp [openAEAD, h1, hnl]

/-- Witness for C5 at concrete inputs. -/
theorem crypt_structure_witness :
    crypt reset [1, 2, 3, 4, 5] 0 = cryptSpec reset [1, 2, 3, 4, 5] 0 ∧
      (List.replicate 16 0).length = 16 ∧
      sealAEAD ⟨0, 0, 0, 0⟩ [] (List.replicate 16 0) [7] [9] =
        some ([] ++ (crypt (process (initCore ⟨0, 0, 0, 0⟩ (List.replicate 16 0)) [9]) [7] 0).2 ++
          finalizeTag (crypt (process (initCore ⟨0, 0, 0, 0⟩ (List.replicate 16 0)) [9]) [7] 0).1) ∧
      16 ≤ (List.replicate 16 0 : List Nat).length ∧
      openAEAD ⟨0, 0, 0, 0⟩ [] (List.replicate 16 0) (List.replicate 16 0) [9] =
        (if constantTimeCompare ((List.replicate 16 0 : List Nat).drop
              ((List.replicate 16 0 : List Nat).length - 16))
            (finalizeTag (crypt (process (initCore ⟨0, 0, 0, 0⟩ (List.replicate 16 0)) [9])
              ((List.replicate 16 0 : List Nat).take
                ((List.replicate 16 0 : List Nat).length - 16)) one).1) = 0 then
          OpenOut.authFail []
        else
          OpenOut.ok ([] ++ (crypt (process (initCore ⟨0, 0, 0, 0⟩ (List.replicate 16 0)) [9])
            ((List.replicate 16 0 : List Nat).take
              ((List.replicate 16 0 : List Nat).length - 16)) one).2)) :=
  ⟨crypt_structure.1 reset [1, 2, 3, 4, 5] 0, by decide,
    crypt_structure.2.1 ⟨0, 0, 0, 0⟩ [] (List.replicate 16 0) [7] [9] (by decide),
    by decide,
    crypt_structure.2.2 ⟨0, 0, 0, 0⟩ [] (List.replicate 16 0) (List.replicate 16 0) [9]
      (by decide) (by decide)⟩

/-! ## Byte-extraction algebra

These lemmas relate the low byte of a value after a shift to the same
byte of a 32-bit batched value, and are the backbone of the update-path
equivalence proof. -/

theorem shiftRight_xor (x y k : Nat) : (x ^^^ y) >>> k = x >>> k ^^^ y >>> k := by
  apply Nat.eq_of_testBit_eq
  intro i
  simp [Nat.testBit_shiftRight, Nat.testBit_xor]

theorem shiftRight_and (x y k : Nat) : (x &&& y) >>> k = x >>> k &&& y >>> k := by
  apply Nat.eq_of_testBit_eq
  intro i
  simp [Nat.testBit_shiftRight, Nat.testBit_and]

theorem mod_pow_xor (x y n : Nat) : (x ^^^ y) % 2 ^ n = x % 2 ^ n ^^^ y % 2 ^ n := by
  apply Nat.eq_of_testBit_eq
  intro i
  simp only [Nat.testBit_mod_two_pow, Nat.testBit_xor]
  by_cases hi : i < n <;> simp [hi]

theorem mod256_xor (x y : Nat) : (x ^^^ y) % 256 = x % 256 ^^^ y % 256 := by
  rw [show (256 : Nat) = 2 ^ 8 from rfl]
  exact mod_pow_xor x y 8

theorem mod256_and (x y : Nat) : (x &&& y) % 256 = x % 256 &&& y % 256 := by
  apply Nat.eq_of_testBit_eq
  intro i
  rw [show (256 : Nat) = 2 ^ 8 from rfl]
  simp only [Nat.testBit_mod_two_pow, Nat.testBit_and]
  by_cases hi : i < 8 <;> simp [hi]

theorem mod256_mod256 (x : Nat) : x % 256 % 256 = x % 256 :=
  Nat.mod_mod_of_dvd x (dvd_refl 256)

theorem u32_mod256 (v : Nat) : u32 v % 256 = v % 256 :=
  Nat.mod_mod_of_dvd v (by norm_num)

theorem u32_shift_mod256 {k : Nat} (hk : k + 8 ≤ 32) (v : Nat) :
    u32 v >>> k % 256 = v >>> k % 256 := by
  apply Nat.eq_of_testBit_eq
  intro i
  rw [show (256 : Nat) = 2 ^ 8 from rfl]
  simp only [Nat.testBit_mod_two_pow, Nat.testBit_shiftRight, u32_eq_mod]
  by_cases hi : i < 8
  · simp [hi, show k + i < 32 by omega]
  · simp [hi]

theorem mask32_mod256 : (0xFFFFFFFF : Nat) % 256 = 0xFF := by norm_num

theorem mask32_shift_mod256 {k : Nat} (hk : k + 8 ≤ 32) :
    (0xFFFFFFFF : Nat) >>> k % 256 = 0xFF := by
  apply Nat.eq_of_testBit_eq
  intro i
  rw [show (256 : Nat) = 2 ^ 8 from rfl, show (0xFF : Nat) = 2 ^ 8 - 1 from rfl]
  simp only [Nat.testBit_mod_two_pow, Nat.testBit_shiftRight, testBit_mask32,
    Nat.testBit_two_pow_sub_one]
  by_cases hi : i < 8
  · simp [hi, show k + i < 32 by omega]
  · simp [hi]

theorem not32_mod256 (v : Nat) : not32 v % 256 = v % 256 ^^^ 0xFF := by
  unfold not32
  rw [mod256_xor, mask32_mod256]

theorem not32_shift_mod256 {k : Nat} (hk : k + 8 ≤ 32) (v : Nat) :
    not32 v >>> k % 256 = v >>> k % 256 ^^^ 0xFF := by
  unfold not32
  rw [shiftRight_xor, mod256_xor, mask32_shift_mod256 hk]

theorem maj_mod256 (x y z : Nat) :
    maj x y z % 256 = maj (x % 256) (y % 256) (z % 256) := by
  unfold maj
  rw [mod256_xor, mod256_xor, mod256_and, mod256_and, mod256_and]

theorem maj_shift_mod256 (x y z k : Nat) :
    maj x y z >>> k % 256 = maj (x >>> k % 256) (y >>> k % 256) (z >>> k % 256) := by
  unfold maj
  rw [shiftRight_xor, shiftRight_xor, shiftRight_and, shiftRight_and, shiftRight_and,
    mod256_xor, mod256_xor, mod256_and, mod256_and, mod256_and]

theorem ch_mod256 (x y z : Nat) :
    ch x y z % 256 = (x % 256 &&& y % 256) ^^^ ((x % 256 ^^^ 0xFF) &&& z % 256) := by
  unfold ch
  rw [mod256_xor, mod256_and, mod256_and, not32_mod256]

theorem ch_shift_mod256 {k : Nat} (hk : k + 8 ≤ 32) (x y z : Nat) :
    ch x y z >>> k % 256 =
      (x >>> k % 256 &&& y >>> k % 256) ^^^ ((x >>> k % 256 ^^^ 0xFF) &&& z >>> k % 256) := by
  unfold ch
  rw [shiftRight_xor, shiftRight_and, shiftRight_and, mod256_xor, mod256_and, mod256_and,
    not32_shift_mod256 hk]

/-! ## Window propagation: low bits of the register survive a step -/

theorem shiftLeft_mod_eq_zero {W pos : Nat} (h : W ≤ pos) (inj : Nat) :
    inj <<< pos % 2 ^ W = 0 := by
  rw [Nat.shiftLeft_eq]
  have hp : (2 : Nat) ^ pos = 2 ^ (pos - W) * 2 ^ W := by
    rw [← pow_add]
    congr 1
    omega
  rw [hp, ← Nat.mul_assoc, Nat.mul_mod_left]

theorem xor_shiftLeft_mod {W pos : Nat} (h : W ≤ pos) (x inj : Nat) :
    (x ^^^ inj <<< pos) % 2 ^ W = x % 2 ^ W := by
  rw [mod_pow_xor, shiftLeft_mod_eq_zero h, Nat.xor_zero]

theorem shiftRight8_mod_congr {x y W : Nat} (h : x % 2 ^ (W + 8) = y % 2 ^ (W + 8)) :
    x >>> 8 % 2 ^ W = y >>> 8 % 2 ^ W := by
  apply Nat.eq_of_testBit_eq
  intro i
  have hx := congrArg (fun t => Nat.testBit t (8 + i)) h
  simp only [Nat.testBit_mod_two_pow, Nat.testBit_shiftRight] at hx ⊢
  by_cases hi : i < W
  · have h8 : 8 + i < W + 8 := by omega
    simp only [h8, decide_True, Bool.true_and] at hx
    simp [hi, hx]
  · simp [hi]

theorem read8_congr {x y W c : Nat} (h : x % 2 ^ W = y % 2 ^ W) (hc : c + 8 ≤ W) :
    x >>> c % 256 = y >>> c % 256 := by
  apply Nat.eq_of_testBit_eq
  intro i
  rw [show (256 : Nat) = 2 ^ 8 from rfl]
  simp only [Nat.testBit_mod_two_pow, Nat.testBit_shiftRight]
  by_cases hi : i < 8
  · have hx := congrArg (fun t => Nat.testBit t (c + i)) h
    simp only [Nat.testBit_mod_two_pow, show c + i < W by omega, decide_True,
      Bool.true_and] at hx
    simp [hi, hx]
  · simp [hi]

/-! ## Recomposing four byte injections into one word injection -/

theorem inject4_eq {V : Nat} (hV : V < 2 ^ 32) (a p : Nat) :
    a ^^^ (V % 256) <<< p ^^^ (V >>> 8 % 256) <<< (p + 8) ^^^
      (V >>> 16 % 256) <<< (p + 16) ^^^ (V >>> 24 % 256) <<< (p + 24) = a ^^^ V <<< p := by
  apply Nat.eq_of_testBit_eq
  intro i
  simp only [Nat.testBit_xor, Nat.testBit_shiftLeft, show (256 : Nat) = 2 ^ 8 from rfl,
    Nat.testBit_mod_two_pow, Nat.testBit_shiftRight]
  by_cases c0 : i < p
  · simp [show ¬p ≤ i by omega, show ¬p + 8 ≤ i by omega, show ¬p + 16 ≤ i by omega,
      show ¬p + 24 ≤ i by omega]
  · by_cases c1 : i < p + 8
    · simp [show p ≤ i by omega, show ¬p + 8 ≤ i by omega, show ¬p + 16 ≤ i by omega,
        show ¬p + 24 ≤ i by omega, show i - p < 8 by omega]
    · by_cases c2 : i < p + 16
      · simp [show p ≤ i by omega, show p + 8 ≤ i by omega, show ¬p + 16 ≤ i by omega,
          show ¬p + 24 ≤ i by omega, show ¬i - p < 8 by omega,
          show i - (p + 8) < 8 by omega, show 8 + (i - (p + 8)) = i - p by omega]
      · by_cases c3 : i < p + 24
        · simp [show p ≤ i by omega, show p + 8 ≤ i by omega, show p + 16 ≤ i by omega,
            show ¬p + 24 ≤ i by omega, show ¬i - p < 8 by omega,
            show ¬i - (p + 8) < 8 by omega, show i - (p + 16) < 8 by omega,
            show 16 + (i - (p + 16)) = i - p by omega]
        · by_cases c4 : i < p + 32
          · simp [show p ≤ i by omega, show p + 8 ≤ i by omega, show p + 16 ≤ i by omega,
              show p + 24 ≤ i by omega, show ¬i - p < 8 by omega,
              show ¬i - (p + 8) < 8 by omega, show ¬i - (p + 16) < 8 by omega,
              show i - (p + 24) < 8 by omega, show 24 + (i - (p + 24)) = i - p by omega]
          · simp [show p ≤ i by omega, show p + 8 ≤ i by omega, show p + 16 ≤ i by omega,
              show p + 24 ≤ i by omega, show ¬i - p < 8 by omega,
              show ¬i - (p + 8) < 8 by omega, show ¬i - (p + 16) < 8 by omega,
              show ¬i - (p + 24) < 8 by omega,
              testBit_of_lt_of_le hV (by omega : 32 ≤ i - p)]

theorem xor_interleave (a x1 y1 x2 y2 x3 y3 x4 y4 : Nat) :
    a ^^^ x1 ^^^ y1 ^^^ x2 ^^^ y2 ^^^ x3 ^^^ y3 ^^^ x4 ^^^ y4 =
      a ^^^ x1 ^^^ x2 ^^^ x3 ^^^ x4 ^^^ y1 ^^^ y2 ^^^ y3 ^^^ y4 := by
  apply Nat.eq_of_testBit_eq
  intro i
  simp only [Nat.testBit_xor]
  generalize a.testBit i = A
  generalize x1.testBit i = B
  generalize y1.testBit i = C
  generalize x2.testBit i = D
  generalize y2.testBit i = E
  generalize x3.testBit i = F
  generalize y3.testBit i = G
  generalize x4.testBit i = H
  generalize y4.testBit i = J
  revert A B C D E F G H J
  decide

/-! ## Bounds on the remaining wide components -/

theorem n230w_lt (s : State) : n230w s < 2 ^ 32 :=
  Nat.xor_lt_two_pow (Nat.xor_lt_two_pow (u32_lt _) (u32_lt _)) (u32_lt _)

theorem n107w_lt (s : State) : n107w s < 2 ^ 32 :=
  Nat.xor_lt_two_pow (Nat.xor_lt_two_pow (u32_lt _) (u32_lt _)) (u32_lt _)

theorem x289w_lt (s : State) : x289w s < 2 ^ 32 :=
  Nat.xor_lt_two_pow (u32_lt _) (u32_lt _)

theorem not32_lt {v : Nat} (hv : v < 2 ^ 32) : not32 v < 2 ^ 32 :=
  Nat.xor_lt_two_pow hv (by norm_num)

theorem fw_lt (s : State) (ca cb : Nat) : fw s ca cb < 2 ^ 32 :=
  Nat.xor_lt_two_pow
    (Nat.xor_lt_two_pow
      (Nat.xor_lt_two_pow (Nat.xor_lt_two_pow (u32_lt _) (not32_lt (n107w_lt s)))
        (maj_lt (u32_lt _) (u32_lt _)))
      (Nat.and_lt_two_pow _ (u32_lt _)))
    (Nat.and_lt_two_pow _ (ksw_lt s))

/-! ## Step correspondence

When the low windows of a stepped register `sB` agree with byte offset
`k` of the original register `s0` at every tap position, all 8-bit
components of the next narrow update equal byte `k/8` of the
corresponding wide components computed from `s0`. -/

theorem components_byte {s0 sB : State} {k : Nat} (hk : k + 8 ≤ 32)
    (h230a : sB.s230 % 256 = s0.s230 >>> k % 256)
    (h230b : sB.s230 >>> 5 % 256 = s0.s230 >>> (5 + k) % 256)
    (h230c : sB.s230 >>> 14 % 256 = s0.s230 >>> (14 + k) % 256)
    (h193a : sB.s193 % 256 = s0.s193 >>> k % 256)
    (h193b : sB.s193 >>> 3 % 256 = s0.s193 >>> (3 + k) % 256)
    (h154a : sB.s154 % 256 = s0.s154 >>> k % 256)
    (h154b : sB.s154 >>> 6 % 256 = s0.s154 >>> (6 + k) % 256)
    (h107a : sB.s107 % 256 = s0.s107 >>> k % 256)
    (h107b : sB.s107 >>> 4 % 256 = s0.s107 >>> (4 + k) % 256)
    (h61a : sB.s61 % 256 = s0.s61 >>> k % 256)
    (h61b : sB.s61 >>> 5 % 256 = s0.s61 >>> (5 + k) % 256)
    (h0a : sB.s0 % 256 = s0.s0 >>> k % 256)
    (h0b : sB.s0 >>> 12 % 256 = s0.s0 >>> (12 + k) % 256)
    (h0c : sB.s0 >>> 23 % 256 = s0.s0 >>> (23 + k) % 256) :
    x289b sB = x289w s0 >>> k % 256 ∧
    n230b sB = n230w s0 >>> k % 256 ∧
    n193b sB = n193w s0 >>> k % 256 ∧
    n154b sB = n154w s0 >>> k % 256 ∧
    n107b sB = n107w s0 >>> k % 256 ∧
    n61b sB = n61w s0 >>> k % 256 ∧
    ks8 sB = ksw s0 >>> k % 256 ∧
    ∀ ca cb, f8 sB (ca >>> k % 256) (cb >>> k % 256) = fw s0 ca cb >>> k % 256 := by
  have hx289 : x289b sB = x289w s0 >>> k % 256 := by
    simp only [x289b, x289w, t235, and255, mod256_xor, u32_mod256, h230a, h230b,
      shiftRight_xor, u32_shift_mod256 hk, ← Nat.shiftRight_add]
  have hn230 : n230b sB = n230w s0 >>> k % 256 := by
    simp only [n230b, n230w, t196, and255, mod256_xor, u32_mod256, h230a, h193a, h193b,
      shiftRight_xor, u32_shift_mod256 hk, ← Nat.shiftRight_add]
  have hn193 : n193b sB = n193w s0 >>> k % 256 := by
    simp only [n193b, n193w, t160, and255, mod256_xor, u32_mod256, h193a, h154a, h154b,
      shiftRight_xor, u32_shift_mod256 hk, ← Nat.shiftRight_add]
  have hn154 : n154b sB = n154w s0 >>> k % 256 := by
    simp only [n154b, n154w, t111, and255, mod256_xor, u32_mod256, h154a, h107a, h107b,
      shiftRight_xor, u32_shift_mod256 hk, ← Nat.shiftRight_add]
  have hn107 : n107b sB = n107w s0 >>> k % 256 := by
    simp only [n107b, n107w, t66, and255, mod256_xor, u32_mod256, h107a, h61a, h61b,
      shiftRight_xor, u32_shift_mod256 hk, ← Nat.shiftRight_add]
  have hn61 : n61b sB = n61w s0 >>> k % 256 := by
    simp only [n61b, n61w, t23, t0, and255, mod256_xor, u32_mod256, h61a, h0a, h0c,
      shiftRight_xor, u32_shift_mod256 hk, ← Nat.shiftRight_add]
  have hks : ks8 sB = ksw s0 >>> k % 256 := by
    simp only [ks8, ksw, t12, t235, t111, t66, and255, mod256_xor, u32_mod256,
      maj_mod256, ch_mod256, hn154, hn61, hn193, hn230, mod256_mod256, h0b, h230b,
      h107b, h61b, shiftRight_xor, u32_shift_mod256 hk, maj_shift_mod256,
      ch_shift_mod256 hk, ← Nat.shiftRight_add]
  have hf : ∀ ca cb, f8 sB (ca >>> k % 256) (cb >>> k % 256) = fw s0 ca cb >>> k % 256 := by
    intro ca cb
    simp only [f8, fw, t0, t244, t23, t160, t196, and255, mod256_xor, mod256_and,
      u32_mod256, maj_mod256, not32_mod256, hn107, hks, mod256_mod256, h0a, h230c, h0c,
      h154b, h193b, shiftRight_xor, shiftRight_and, u32_shift_mod256 hk,
      maj_shift_mod256, not32_shift_mod256 hk, ← Nat.shiftRight_add]
  exact ⟨hx289, hn230, hn193, hn154, hn107, hn61, hks, hf⟩

theorem window_narrow {x y W V : Nat} (h : x % 2 ^ W = y % 2 ^ W) (hV : V ≤ W) :
    x % 2 ^ V = y % 2 ^ V := by
  have hd : (2 : Nat) ^ V ∣ 2 ^ W := pow_dvd_pow 2 hV
  calc x % 2 ^ V = x % 2 ^ W % 2 ^ V := (Nat.mod_mod_of_dvd x hd).symm
    _ = y % 2 ^ W % 2 ^ V := by rw [h]
    _ = y % 2 ^ V := Nat.mod_mod_of_dvd y hd

theorem mod256_congr_of_mod_pow {x y W : Nat} (h : x % 2 ^ W = y % 2 ^ W) (hW : 8 ≤ W) :
    x % 256 = y % 256 := by
  rw [show (256 : Nat) = 2 ^ 8 from rfl]
  exact window_narrow h hW

theorem window_advance (W pos : Nat) (hW : W ≤ pos) {x G : Nat}
    (h : x % 2 ^ (W + 8) = G % 2 ^ (W + 8)) (inj : Nat) :
    (x >>> 8 ^^^ inj <<< pos) % 2 ^ W = G >>> 8 % 2 ^ W := by
  rw [xor_shiftLeft_mod hW]
  exact shiftRight8_mod_congr h

theorem window_advance2 (W p1 p2 : Nat) (h1 : W ≤ p1) (h2 : W ≤ p2) {x G : Nat}
    (h : x % 2 ^ (W + 8) = G % 2 ^ (W + 8)) (i1 i2 : Nat) :
    (x >>> 8 ^^^ i1 <<< p1 ^^^ i2 <<< p2) % 2 ^ W = G >>> 8 % 2 ^ W := by
  rw [xor_shiftLeft_mod h2, xor_shiftLeft_mod h1]
  exact shiftRight8_mod_congr h

theorem shiftLeft_shiftRight8 (p b : Nat) (hp : 8 ≤ p) : b <<< p >>> 8 = b <<< (p - 8) := by
  rw [Nat.shiftLeft_eq, Nat.shiftLeft_eq, Nat.shiftRight_eq_div_pow]
  have hsplit : (2 : Nat) ^ p = 2 ^ (p - 8) * 2 ^ 8 := by
    rw [← pow_add]
    congr 1
    omega
  rw [hsplit, ← Nat.mul_assoc, Nat.mul_div_cancel _ (by norm_num : 0 < (2:Nat) ^ 8)]

/-- All reads of one narrow update need only the low windows of the six
segments; from the window agreements, the full component correspondence
of `components_byte` follows. -/
theorem reads_of_windows {s0 sB : State} {k : Nat} (hk : k + 8 ≤ 32)
    (w230 : sB.s230 % 2 ^ 22 = s0.s230 >>> k % 2 ^ 22)
    (w193 : sB.s193 % 2 ^ 11 = s0.s193 >>> k % 2 ^ 11)
    (w154 : sB.s154 % 2 ^ 14 = s0.s154 >>> k % 2 ^ 14)
    (w107 : sB.s107 % 2 ^ 12 = s0.s107 >>> k % 2 ^ 12)
    (w61 : sB.s61 % 2 ^ 13 = s0.s61 >>> k % 2 ^ 13)
    (w0 : sB.s0 % 2 ^ 31 = s0.s0 >>> k % 2 ^ 31) :
    x289b sB = x289w s0 >>> k % 256 ∧
    n230b sB = n230w s0 >>> k % 256 ∧
    n193b sB = n193w s0 >>> k % 256 ∧
    n154b sB = n154w s0 >>> k % 256 ∧
    n107b sB = n107w s0 >>> k % 256 ∧
    n61b sB = n61w s0 >>> k % 256 ∧
    ks8 sB = ksw s0 >>> k % 256 ∧
    ∀ ca cb, f8 sB (ca >>> k % 256) (cb >>> k % 256) = fw s0 ca cb >>> k % 256 := by
  have h230a := mod256_congr_of_mod_pow w230 (by norm_num)
  have h230b := read8_congr w230 (by norm_num : 5 + 8 ≤ 22)
  rw [← Nat.shiftRight_add, Nat.add_comm k 5] at h230b
  have h230c := read8_congr w230 (by norm_num : 14 + 8 ≤ 22)
  rw [← Nat.shiftRight_add, Nat.add_comm k 14] at h230c
  have h193a := mod256_congr_of_mod_pow w193 (by norm_num)
  have h193b := read8_congr w193 (by norm_num : 3 + 8 ≤ 11)
  rw [← Nat.shiftRight_add, Nat.add_comm k 3] at h193b
  have h154a := mod256_congr_of_mod_pow w154 (by norm_num)
  have h154b := read8_congr w154 (by norm_num : 6 + 8 ≤ 14)
  rw [← Nat.shiftRight_add, Nat.add_comm k 6] at h154b
  have h107a := mod256_congr_of_mod_pow w107 (by norm_num)
  have h107b := read8_congr w107 (by norm_num : 4 + 8 ≤ 12)
  rw [← Nat.shiftRight_add, Nat.add_comm k 4] at h107b
  have h61a := mod256_congr_of_mod_pow w61 (by norm_num)
  have h61b := read8_congr w61 (by norm_num : 5 + 8 ≤ 13)
  rw [← Nat.shiftRight_add, Nat.add_comm k 5] at h61b
  have h0a := mod256_congr_of_mod_pow w0 (by norm_num)
  have h0b := read8_congr w0 (by norm_num : 12 + 8 ≤ 31)
  rw [← Nat.shiftRight_add, Nat.add_comm k 12] at h0b
  have h0c := read8_congr w0 (by norm_num : 23 + 8 ≤ 31)
  rw [← Nat.shiftRight_add, Nat.add_comm k 23] at h0c
  exact components_byte hk h230a h230b h230c h193a h193b h154a h154b h107a h107b
    h61a h61b h0a h0b h0c

set_option maxHeartbeats 2000000 in
/-- C3.  Update-path equivalence: for every starting register state, a
single wide update on a 32-bit word and masks produces the same final
register state, and its keystream word is the low-byte-first
concatenation of the four keystream bytes of the four sequential narrow
updates on the successive low-to-high bytes of `m`, `ca` and `cb`. -/
theorem update_path_equivalence (s : State) (m ca cb : Nat)
    (hm : m < 2 ^ 32) (hca : ca < 2 ^ 32) (hcb : cb < 2 ^ 32) :
    (update8 (update8 (update8 (update8 s (m % 256) (ca % 256) (cb % 256)).1
          (m >>> 8 % 256) (ca >>> 8 % 256) (cb >>> 8 % 256)).1
        (m >>> 16 % 256) (ca >>> 16 % 256) (cb >>> 16 % 256)).1
      (m >>> 24 % 256) (ca >>> 24 % 256) (cb >>> 24 % 256)).1 = (update32 s m ca cb).1 ∧
    (update32 s m ca cb).2 =
      le32 (update8 s (m % 256) (ca % 256) (cb % 256)).2
        (update8 (update8 s (m % 256) (ca % 256) (cb % 256)).1
          (m >>> 8 % 256) (ca >>> 8 % 256) (cb >>> 8 % 256)).2
        (update8 (update8 (update8 s (m % 256) (ca % 256) (cb % 256)).1
            (m >>> 8 % 256) (ca >>> 8 % 256) (cb >>> 8 % 256)).1
          (m >>> 16 % 256) (ca >>> 16 % 256) (cb >>> 16 % 256)).2
        (update8 (update8 (update8 (update8 s (m % 256) (ca % 256) (cb % 256)).1
              (m >>> 8 % 256) (ca >>> 8 % 256) (cb >>> 8 % 256)).1
            (m >>> 16 % 256) (ca >>> 16 % 256) (cb >>> 16 % 256)).1
          (m >>> 24 % 256) (ca >>> 24 % 256) (cb >>> 24 % 256)).2 := by
  set S1 := (update8 s (m % 256) (ca % 256) (cb % 256)).1 with hS1def
  set S2 := (update8 S1 (m >>> 8 % 256) (ca >>> 8 % 256) (cb >>> 8 % 256)).1 with hS2def
  set S3 := (update8 S2 (m >>> 16 % 256) (ca >>> 16 % 256) (cb >>> 16 % 256)).1 with hS3def
  have hS1 : S1 = ⟨s.s230 >>> 8 ^^^ x289b s <<< 51 ^^^
        ((f8 s (ca % 256) (cb % 256) ^^^ m % 256) &&& 0xFF) <<< 55,
      s.s193 >>> 8 ^^^ n230b s <<< 29,
      s.s154 >>> 8 ^^^ n193b s <<< 31,
      s.s107 >>> 8 ^^^ n154b s <<< 39,
      s.s61 >>> 8 ^^^ n107b s <<< 38,
      s.s0 >>> 8 ^^^ n61b s <<< 53⟩ := by
    rw [hS1def, update8_eq]
  have hS2 : S2 = ⟨S1.s230 >>> 8 ^^^ x289b S1 <<< 51 ^^^
        ((f8 S1 (ca >>> 8 % 256) (cb >>> 8 % 256) ^^^ m >>> 8 % 256) &&& 0xFF) <<< 55,
      S1.s193 >>> 8 ^^^ n230b S1 <<< 29,
      S1.s154 >>> 8 ^^^ n193b S1 <<< 31,
      S1.s107 >>> 8 ^^^ n154b S1 <<< 39,
      S1.s61 >>> 8 ^^^ n107b S1 <<< 38,
      S1.s0 >>> 8 ^^^ n61b S1 <<< 53⟩ := by
    rw [hS2def, update8_eq]
  have hS3 : S3 = ⟨S2.s230 >>> 8 ^^^ x289b S2 <<< 51 ^^^
        ((f8 S2 (ca >>> 16 % 256) (cb >>> 16 % 256) ^^^ m >>> 16 % 256) &&& 0xFF) <<< 55,
      S2.s193 >>> 8 ^^^ n230b S2 <<< 29,
      S2.s154 >>> 8 ^^^ n193b S2 <<< 31,
      S2.s107 >>> 8 ^^^ n154b S2 <<< 39,
      S2.s61 >>> 8 ^^^ n107b S2 <<< 38,
      S2.s0 >>> 8 ^^^ n61b S2 <<< 53⟩ := by
    rw [hS3def, update8_eq]
  obtain ⟨X0, B230_0, B193_0, B154_0, B107_0, B61_0, K0, F0⟩ :=
    @reads_of_windows s s 0 (by norm_num) (by simp) (by simp) (by simp) (by simp)
      (by simp) (by simp)
  simp only [Nat.shiftRight_zero] at X0 B230_0 B193_0 B154_0 B107_0 B61_0 K0 F0
  have w1_230 : S1.s230 % 2 ^ 51 = s.s230 >>> 8 % 2 ^ 51 := by
    simp only [hS1]
    exact window_advance2 51 51 55 (by norm_num) (by norm_num)
      (rfl : s.s230 % 2 ^ 59 = s.s230 % 2 ^ 59) _ _
  have w1_193 : S1.s193 % 2 ^ 29 = s.s193 >>> 8 % 2 ^ 29 := by
    simp only [hS1]
    exact window_advance 29 29 (by norm_num)
      (rfl : s.s193 % 2 ^ 37 = s.s193 % 2 ^ 37) _
  have w1_154 : S1.s154 % 2 ^ 31 = s.s154 >>> 8 % 2 ^ 31 := by
    simp only [hS1]
    exact window_advance 31 31 (by norm_num)
      (rfl : s.s154 % 2 ^ 39 = s.s154 % 2 ^ 39) _
  have w1_107 : S1.s107 % 2 ^ 39 = s.s107 >>> 8 % 2 ^ 39 := by
    simp only [hS1]
    exact window_advance 39 39 (by norm_num)
      (rfl : s.s107 % 2 ^ 47 = s.s107 % 2 ^ 47) _
  have w1_61 : S1.s61 % 2 ^ 30 = s.s61 >>> 8 % 2 ^ 30 := by
    simp only [hS1]
    exact window_advance 30 38 (by norm_num)
      (rfl : s.s61 % 2 ^ 38 = s.s61 % 2 ^ 38) _
  have w1_0 : S1.s0 % 2 ^ 53 = s.s0 >>> 8 % 2 ^ 53 := by
    simp only [hS1]
    exact window_advance 53 53 (by norm_num)
      (rfl : s.s0 % 2 ^ 61 = s.s0 % 2 ^ 61) _
  obtain ⟨X1, B230_1, B193_1, B154_1, B107_1, B61_1, K1, F1⟩ :=
    @reads_of_windows s S1 8 (by norm_num)
      (window_narrow w1_230 (by norm_num)) (window_narrow w1_193 (by norm_num))
      (window_narrow w1_154 (by norm_num)) (window_narrow w1_107 (by norm_num))
      (window_narrow w1_61 (by norm_num)) (window_narrow w1_0 (by norm_num))
  have w2_230 : S2.s230 % 2 ^ 43 = s.s230 >>> 16 % 2 ^ 43 := by
    simp only [hS2]
    have h := window_advance2 43 51 55 (by norm_num) (by norm_num) w1_230
      (x289b S1)
      ((f8 S1 (ca >>> 8 % 256) (cb >>> 8 % 256) ^^^ m >>> 8 % 256) &&& 0xFF)
    rw [← Nat.shiftRight_add] at h
    exact h
  have w2_193 : S2.s193 % 2 ^ 21 = s.s193 >>> 16 % 2 ^ 21 := by
    simp only [hS2]
    have h := window_advance 21 29 (by norm_num) w1_193 (n230b S1)
    rw [← Nat.shiftRight_add] at h
    exact h
  have w2_154 : S2.s154 % 2 ^ 23 = s.s154 >>> 16 % 2 ^ 23 := by
    simp only [hS2]
    have h := window_advance 23 31 (by norm_num) w1_154 (n193b S1)
    rw [← Nat.shiftRight_add] at h
    exact h
  have w2_107 : S2.s107 % 2 ^ 31 = s.s107 >>> 16 % 2 ^ 31 := by
    simp only [hS2]
    have h := window_advance 31 39 (by norm_num) w1_107 (n154b S1)
    rw [← Nat.shiftRight_add] at h
    exact h
  have w2_61 : S2.s61 % 2 ^ 22 = s.s61 >>> 16 % 2 ^ 22 := by
    simp only [hS2]
    have h := window_advance 22 38 (by norm_num) w1_61 (n107b S1)
    rw [← Nat.shiftRight_add] at h
    exact h
  have w2_0 : S2.s0 % 2 ^ 45 = s.s0 >>> 16 % 2 ^ 45 := by
    simp only [hS2]
    have h := window_advance 45 53 (by norm_num) w1_0 (n61b S1)
    rw [← Nat.shiftRight_add] at h
    exact h
  obtain ⟨X2, B230_2, B193_2, B154_2, B107_2, B61_2, K2, F2⟩ :=
    @reads_of_windows s S2 16 (by norm_num)
      (window_narrow w2_230 (by norm_num)) (window_narrow w2_193 (by norm_num))
      (window_narrow w2_154 (by norm_num)) (window_narrow w2_107 (by norm_num))
      (window_narrow w2_61 (by norm_num)) (window_narrow w2_0 (by norm_num))
  have w3_230 : S3.s230 % 2 ^ 35 = s.s230 >>> 24 % 2 ^ 35 := by
    simp only [hS3]
    have h := window_advance2 35 51 55 (by norm_num) (by norm_num) w2_230
      (x289b S2)
      ((f8 S2 (ca >>> 16 % 256) (cb >>> 16 % 256) ^^^ m >>> 16 % 256) &&& 0xFF)
    rw [← Nat.shiftRight_add] at h
    exact h
  have w3_193 : S3.s193 % 2 ^ 13 = s.s193 >>> 24 % 2 ^ 13 := by
    simp only [hS3]
    have h := window_advance 13 29 (by norm_num) w2_193 (n230b S2)
    rw [← Nat.shiftRight_add] at h
    exact h
  have w3_154 : S3.s154 % 2 ^ 15 = s.s154 >>> 24 % 2 ^ 15 := by
    simp only [hS3]
    have h := window_advance 15 31 (by norm_num) w2_154 (n193b S2)
    rw [← Nat.shiftRight_add] at h
    exact h
  have w3_107 : S3.s107 % 2 ^ 23 = s.s107 >>> 24 % 2 ^ 23 := by
    simp only [hS3]
    have h := window_advance 23 39 (by norm_num) w2_107 (n154b S2)
    rw [← Nat.shiftRight_add] at h
    exact h
  have w3_61 : S3.s61 % 2 ^ 14 = s.s61 >>> 24 % 2 ^ 14 := by
    simp only [hS3]
    have h := window_advance 14 38 (by norm_num) w2_61 (n107b S2)
    rw [← Nat.shiftRight_add] at h
    exact h
  have w3_0 : S3.s0 % 2 ^ 37 = s.s0 >>> 24 % 2 ^ 37 := by
    simp only [hS3]
    have h := window_advance 37 53 (by norm_num) w2_0 (n61b S2)
    rw [← Nat.shiftRight_add] at h
    exact h
  obtain ⟨X3, B230_3, B193_3, B154_3, B107_3, B61_3, K3, F3⟩ :=
    @reads_of_windows s S3 24 (by norm_num)
      (window_narrow w3_230 (by norm_num)) (window_narrow w3_193 (by norm_num))
      (window_narrow w3_154 (by norm_num)) (window_narrow w3_107 (by norm_num))
      (window_narrow w3_61 (by norm_num)) (window_narrow w3_0 (by norm_num))
  have hVfm : fw s ca cb ^^^ m < 2 ^ 32 := Nat.xor_lt_two_pow (fw_lt s ca cb) hm
  have hv0 : (f8 s (ca % 256) (cb % 256) ^^^ m % 256) &&& 0xFF =
      (fw s ca cb ^^^ m) % 256 := by
    simp only [and255, mod256_xor, mod256_mod256, F0]
  have hv1 : (f8 S1 (ca >>> 8 % 256) (cb >>> 8 % 256) ^^^ m >>> 8 % 256) &&& 0xFF =
      (fw s ca cb ^^^ m) >>> 8 % 256 := by
    simp only [and255, mod256_xor, mod256_mod256, F1, shiftRight_xor]
  have hv2 : (f8 S2 (ca >>> 16 % 256) (cb >>> 16 % 256) ^^^ m >>> 16 % 256) &&& 0xFF =
      (fw s ca cb ^^^ m) >>> 16 % 256 := by
    simp only [and255, mod256_xor, mod256_mod256, F2, shiftRight_xor]
  have hv3 : (f8 S3 (ca >>> 24 % 256) (cb >>> 24 % 256) ^^^ m >>> 24 % 256) &&& 0xFF =
      (fw s ca cb ^^^ m) >>> 24 % 256 := by
    simp only [and255, mod256_xor, mod256_mod256, F3, shiftRight_xor]
  constructor
  · simp only [update8_eq, update32_eq, State.mk.injEq]
    refine ⟨?_, ?_, ?_, ?_, ?_, ?_⟩
    · rw [X3, hv3]
      simp only [hS3]
      rw [X2, hv2]
      simp only [hS2]
      rw [X1, hv1]
      simp only [hS1]
      rw [X0, hv0]
      simp [shiftRight_xor, shiftLeft_shiftRight8, ← Nat.shiftRight_add]
      rw [show fw s ca cb >>> 8 ^^^ m >>> 8 = (fw s ca cb ^^^ m) >>> 8 from
          (shiftRight_xor _ _ 8).symm,
        show fw s ca cb >>> 16 ^^^ m >>> 16 = (fw s ca cb ^^^ m) >>> 16 from
          (shiftRight_xor _ _ 16).symm,
        show fw s ca cb >>> 24 ^^^ m >>> 24 = (fw s ca cb ^^^ m) >>> 24 from
          (shiftRight_xor _ _ 24).symm]
      rw [xor_interleave, inject4_eq (x289w_lt s) _ 27, inject4_eq hVfm _ 31]
    · rw [B230_3]
      simp only [hS3]
      rw [B230_2]
      simp only [hS2]
      rw [B230_1]
      simp only [hS1]
      rw [B230_0]
      simp [shiftRight_xor, shiftLeft_shiftRight8, ← Nat.shiftRight_add]
      rw [inject4_eq (n230w_lt s) _ 5]
    · rw [B193_3]
      simp only [hS3]
      rw [B193_2]
      simp only [hS2]
      rw [B193_1]
      simp only [hS1]
      rw [B193_0]
      simp [shiftRight_xor, shiftLeft_shiftRight8, ← Nat.shiftRight_add]
      rw [inject4_eq (n193w_lt s) _ 7]
    · rw [B154_3]
      simp only [hS3]
      rw [B154_2]
      simp only [hS2]
      rw [B154_1]
      simp only [hS1]
      rw [B154_0]
      simp [shiftRight_xor, shiftLeft_shiftRight8, ← Nat.shiftRight_add]
      rw [inject4_eq (n154w_lt s) _ 15]
    · rw [B107_3]
      simp only [hS3]
      rw [B107_2]
      simp only [hS2]
      rw [B107_1]
      simp only [hS1]
      rw [B107_0]
      simp [shiftRight_xor, shiftLeft_shiftRight8, ← Nat.shiftRight_add]
      rw [inject4_eq (n107w_lt s) _ 14]
    · rw [B61_3]
      simp only [hS3]
      rw [B61_2]
      simp only [hS2]
      rw [B61_1]
      simp only [hS1]
      rw [B61_0]
      simp [shiftRight_xor, shiftLeft_shiftRight8, ← Nat.shiftRight_add]
      rw [inject4_eq (n61w_lt s) _ 29]
  · rw [update32_snd]
    simp only [update8_snd]
    rw [K0, K1, K2, K3]
    exact (le32_leBytes (ksw_lt s)).symm

set_option maxRecDepth 100000 in
set_option maxHeartbeats 1000000 in
/-- Witness for C8: the all-zero 16-byte input is not the tag of the
empty message, so Open rejects it and returns the empty `dst`. -/
theorem open_tag_mismatch_witness :
    (List.replicate 16 0).length = 16 ∧ 16 ≤ (List.replicate 16 0).length ∧
      openAEAD ⟨0, 0, 0, 0⟩ [] (List.replicate 16 0) (List.replicate 16 0) [] =
        OpenOut.authFail [] :=
  ⟨by decide, by decide,
    open_tag_mismatch ⟨0, 0, 0, 0⟩ [] (List.replicate 16 0) (List.replicate 16 0) []
      (by decide) (by decide) (by decide)⟩

set_option maxRecDepth 100000 in
set_option maxHeartbeats 2000000 in
/-- Witness for C3: the four-narrow-step path and the one-wide-step path agree
at a concrete register state (with set bits above the nominal segment widths)
and concrete word and control masks. -/
theorem update_path_equivalence_witness :
    (0xDEADBEEF : Nat) < 2 ^ 32 ∧ (0x13579BDF : Nat) < 2 ^ 32 ∧ (0x2468ACE0 : Nat) < 2 ^ 32 ∧
    (
    (update8 (update8 (update8 (update8 (⟨0xCAFEBABE12345678, 0x1122334455667788, 0x99AABBCCDDEEFF00, 0xF0E1D2C3B4A59687, 0x13579BDF2468ACE0, 0xFFEEDDCCBBAA9988⟩ : State) (0xDEADBEEF % 256) (0x13579BDF % 256) (0x2468ACE0 % 256)).1
          (0xDEADBEEF >>> 8 % 256) (0x13579BDF >>> 8 % 256) (0x2468ACE0 >>> 8 % 256)).1
        (0xDEADBEEF >>> 16 % 256) (0x13579BDF >>> 16 % 256) (0x2468ACE0 >>> 16 % 256)).1
      (0xDEADBEEF >>> 24 % 256) (0x13579BDF >>> 24 % 256) (0x2468ACE0 >>> 24 % 256)).1 = (update32 (⟨0xCAFEBABE12345678, 0x1122334455667788, 0x99AABBCCDDEEFF00, 0xF0E1D2C3B4A59687, 0x13579BDF2468ACE0, 0xFFEEDDCCBBAA9988⟩ : State) 0xDEADBEEF 0x13579BDF 0x2468ACE0).1 ∧
    (update32 (⟨0xCAFEBABE12345678, 0x1122334455667788, 0x99AABBCCDDEEFF00, 0xF0E1D2C3B4A59687, 0x13579BDF2468ACE0, 0xFFEEDDCCBBAA9988⟩ : State) 0xDEADBEEF 0x13579BDF 0x2468ACE0).2 =
      le32 (update8 (⟨0xCAFEBABE12345678, 0x1122334455667788, 0x99AABBCCDDEEFF00, 0xF0E1D2C3B4A59687, 0x13579BDF2468ACE0, 0xFFEEDDCCBBAA9988⟩ : State) (0xDEADBEEF % 256) (0x13579BDF % 256) (0x2468ACE0 % 256)).2
        (update8 (update8 (⟨0xCAFEBABE12345678, 0x1122334455667788, 0x99AABBCCDDEEFF00, 0xF0E1D2C3B4A59687, 0x13579BDF2468ACE0, 0xFFEEDDCCBBAA9988⟩ : State) (0xDEADBEEF % 256) (0x13579BDF % 256) (0x2468ACE0 % 256)).1
          (0xDEADBEEF >>> 8 % 256) (0x13579BDF >>> 8 % 256) (0x2468ACE0 >>> 8 % 256)).2
        (update8 (update8 (update8 (⟨0xCAFEBABE12345678, 0x1122334455667788, 0x99AABBCCDDEEFF00, 0xF0E1D2C3B4A59687, 0x13579BDF2468ACE0, 0xFFEEDDCCBBAA9988⟩ : State) (0xDEADBEEF % 256) (0x13579BDF % 256) (0x2468ACE0 % 256)).1
            (0xDEADBEEF >>> 8 % 256) (0x13579BDF >>> 8 % 256) (0x2468ACE0 >>> 8 % 256)).1
          (0xDEADBEEF >>> 16 % 256) (0x13579BDF >>> 16 % 256) (0x2468ACE0 >>> 16 % 256)).2
        (update8 (update8 (update8 (update8 (⟨0xCAFEBABE12345678, 0x1122334455667788, 0x99AABBCCDDEEFF00, 0xF0E1D2C3B4A59687, 0x13579BDF2468ACE0, 0xFFEEDDCCBBAA9988⟩ : State) (0xDEADBEEF % 256) (0x13579BDF % 256) (0x2468ACE0 % 256)).1
              (0xDEADBEEF >>> 8 % 256) (0x13579BDF >>> 8 % 256) (0x2468ACE0 >>> 8 % 256)).1
            (0xDEADBEEF >>> 16 % 256) (0x13579BDF >>> 16 % 256) (0x2468ACE0 >>> 16 % 256)).1
          (0xDEADBEEF >>> 24 % 256) (0x13579BDF >>> 24 % 256) (0x2468ACE0 >>> 24 % 256)).2) :=
  ⟨by decide, by decide, by decide,
    update_path_equivalence _ _ _ _ (by decide) (by decide) (by decide)⟩

end Acorn
